import Mathlib

/-!
Shallow embedding of the viz-components core (flag layout, stock chart
realtime feed, nearest-price binary search, extremes preservation, theme
controller debounce, lazy-init gating, and the VizStore key-value store),
translated from the TypeScript sources, together with theorems settling
the specification claims.

Numbers: JavaScript floats are modelled as rationals, timestamps as
integers.  JS Map values are modelled as association lists with
overwrite-in-place semantics.  The JS value `undefined` is modelled as
`Option.none` where it matters.
-/

namespace Viz

/-- JS `Map.set`: overwrite in place if the key exists, else append. -/
def jsMapSet [BEq κ] (m : List (κ × β)) (k : κ) (v : β) : List (κ × β) :=
  if m.any (fun p => p.1 == k) then
    m.map (fun p => if p.1 == k then (k, v) else p)
  else m ++ [(k, v)]

/-- JS `Map.get`: value at a key, or undefined. -/
def jsMapGet [BEq κ] (m : List (κ × β)) (k : κ) : Option β :=
  (m.find? (fun p => p.1 == k)).map (fun p => p.2)

/-- JS `Map.has`. -/
def jsMapHas [BEq κ] (m : List (κ × β)) (k : κ) : Bool :=
  m.any (fun p => p.1 == k)

/-- JS `Map.delete` (the state change; the Boolean result is `jsMapHas`). -/
def jsMapDelete [BEq κ] (m : List (κ × β)) (k : κ) : List (κ × β) :=
  m.filter (fun p => !(p.1 == k))

/-!
## src/utils/flag-layout.ts and the STEM_HEIGHTS constant
(from src/utils/market-event-icons.ts)
-/

namespace FlagLayout

/-- Time threshold for close events (90 days), in milliseconds. -/
def CLOSE_THRESHOLD_MS : Int := 90 * 24 * 60 * 60 * 1000

/-- Minimum vertical separation between icons (4% of visible price range). -/
def MIN_ICON_SEPARATION_PERCENT : ℚ := 4 / 100

/-- Stem height levels for staggering close flags
(market-event-icons.ts, STEM_HEIGHTS). -/
structure StemHeightLevels where
  short : ℚ
  medium : ℚ
  long : ℚ

def STEM_HEIGHTS : StemHeightLevels := { short := 20, medium := 35, long := 50 }

structure EventWithPosition where
  date : Int
  index : Nat
  basePrice : ℚ
deriving DecidableEq

/-- Convert stem height (pixels) to approximate price-space offset:
(stemHeight / STEM_HEIGHTS.long) * 0.06 * priceRange. -/
def stemToPrice (stemHeight : ℚ) (priceRange : ℚ) : ℚ :=
  stemHeight / STEM_HEIGHTS.long * (6 / 100) * priceRange

/-- Collision test for one candidate position against the occupied ones:
occupiedPositions.some(pos => Math.abs(candidateY - pos) < minSeparation). -/
def hasCollision (candidateY : ℚ) (occupiedPositions : List ℚ)
    (minSeparation : ℚ) : Bool :=
  occupiedPositions.any (fun pos => decide (|candidateY - pos| < minSeparation))

/-- Math.min over the distances from a candidate position to the occupied
positions; the empty case is JS Infinity, hence the value lives in
WithTop ℚ. -/
def minDistance (candidateY : ℚ) (occupiedPositions : List ℚ) : WithTop ℚ :=
  (occupiedPositions.map
    (fun pos => ((|candidateY - pos| : ℚ) : WithTop ℚ))).foldr min ⊤

/-- Fallback of findNonCollidingStemHeight when every height collides:
keep the height with the maximum minimum distance, starting from
bestHeight = long with maxMinDistance = 0 and updating on strict
improvement only. -/
def bestEffortStemHeight (basePrice : ℚ) (occupiedPositions : List ℚ)
    (priceRange : ℚ) : ℚ :=
  let heights := [STEM_HEIGHTS.short, STEM_HEIGHTS.medium, STEM_HEIGHTS.long]
  (heights.foldl
    (fun best height =>
      let candidateY := basePrice + stemToPrice height priceRange
      let d := minDistance candidateY occupiedPositions
      if best.2 < d then (height, d) else best)
    (STEM_HEIGHTS.long, ((0 : ℚ) : WithTop ℚ))).1

/-- Find a stem height that does not collide with occupied positions:
first height of short, medium, long without collision, else the
best-effort fallback. -/
def findNonCollidingStemHeight (basePrice : ℚ) (occupiedPositions : List ℚ)
    (minSeparation : ℚ) (priceRange : ℚ) : ℚ :=
  let heights := [STEM_HEIGHTS.short, STEM_HEIGHTS.medium, STEM_HEIGHTS.long]
  match heights.find? (fun height =>
      !(hasCollision (basePrice + stemToPrice height priceRange)
          occupiedPositions minSeparation)) with
  | some height => height
  | none => bestEffortStemHeight basePrice occupiedPositions priceRange

/-- Sorted events carrying the resolved final position of the flag icon. -/
structure ProcessedEvent where
  date : Int
  index : Nat
  basePrice : ℚ
  finalY : ℚ
  stemHeight : ℚ
deriving DecidableEq

/-- Stable insertion by ascending date; an element goes before the first
strictly later one, matching the stable JS sort
events.sort((a, b) => a.date - b.date) when folded from the right. -/
def insertByDate (e : EventWithPosition) :
    List EventWithPosition → List EventWithPosition
  | [] => [e]
  | f :: fs => if e.date ≤ f.date then e :: f :: fs else f :: insertByDate e fs

def sortByDate (events : List EventWithPosition) : List EventWithPosition :=
  events.foldr insertByDate []

/-- One iteration of the processing loop of calculateFlagStemHeights:
collect the nearby previous events (walking backwards until the gap
exceeds the threshold), choose the stem height, record the final
position and write the assignment into the result map. -/
def layoutStep (minSeparation priceRange : ℚ)
    (acc : List ProcessedEvent × List (Nat × ℚ)) (e : EventWithPosition) :
    List ProcessedEvent × List (Nat × ℚ) :=
  let nearbyPrevious := acc.1.reverse.takeWhile
    (fun prev => decide (e.date - prev.date ≤ CLOSE_THRESHOLD_MS))
  let stemHeight :=
    if nearbyPrevious.isEmpty then STEM_HEIGHTS.medium
    else
      findNonCollidingStemHeight e.basePrice (nearbyPrevious.map (fun p => p.finalY))
        minSeparation priceRange
  let finalY := e.basePrice + stemToPrice stemHeight priceRange
  (acc.1 ++ [{ date := e.date, index := e.index, basePrice := e.basePrice,
               finalY := finalY, stemHeight := stemHeight }],
   jsMapSet acc.2 e.index stemHeight)

/-- calculateFlagStemHeights: greedy collision avoidance over the events
sorted by date; returns the map from event index to stem height. -/
def calculateFlagStemHeights (events : List EventWithPosition)
    (priceRange : ℚ) : List (Nat × ℚ) :=
  if events.isEmpty then []
  else
    let minSeparation := priceRange * MIN_ICON_SEPARATION_PERCENT
    ((sortByDate events).foldl (layoutStep minSeparation priceRange) ([], [])).2

end FlagLayout

/-! ## Lemmas about the JS map model -/

theorem jsMapSet_nil [BEq κ] (k : κ) (v : β) :
    jsMapSet ([] : List (κ × β)) k v = [(k, v)] := by
  simp [jsMapSet]

theorem jsMapGet_singleton_self (k : Nat) (v : β) :
    jsMapGet [(k, v)] k = some v := by
  simp [jsMapGet]

theorem jsMapSet_singleton_ne (k j : Nat) (v w : β) (h : k ≠ j) :
    jsMapSet [(k, v)] j w = [(k, v), (j, w)] := by
  simp [jsMapSet, h]

theorem jsMapGet_pair_fst (k j : Nat) (v w : β) :
    jsMapGet [(k, v), (j, w)] k = some v := by
  simp [jsMapGet]

theorem jsMapGet_pair_snd (k j : Nat) (v w : β) (h : k ≠ j) :
    jsMapGet [(k, v), (j, w)] j = some w := by
  have hb : (k == j) = false := by simpa using h
  simp [jsMapGet, List.find?, hb]

namespace FlagLayout

/-! ## Lemmas about the flag layout algorithm -/

theorem sortByDate_pair (e1 e2 : EventWithPosition) (h : e1.date ≤ e2.date) :
    sortByDate [e1, e2] = [e1, e2] := by
  simp [sortByDate, insertByDate, h]

/-- On a two-event input in date order within the proximity window, the
algorithm assigns medium to the first event and the non-colliding choice
against the first event's resolved position to the second. -/
theorem calculateFlagStemHeights_pair (e1 e2 : EventWithPosition) (R : ℚ)
    (hord : e1.date ≤ e2.date)
    (hwin : e2.date - e1.date ≤ CLOSE_THRESHOLD_MS) :
    calculateFlagStemHeights [e1, e2] R =
      jsMapSet (jsMapSet [] e1.index STEM_HEIGHTS.medium) e2.index
        (findNonCollidingStemHeight e2.basePrice
          [e1.basePrice + stemToPrice STEM_HEIGHTS.medium R]
          (R * MIN_ICON_SEPARATION_PERCENT) R) := by
  rw [calculateFlagStemHeights]
  simp only [List.isEmpty_cons, if_neg]
  rw [sortByDate_pair e1 e2 hord]
  simp [layoutStep, hwin, List.takeWhile]

theorem stemToPrice_short (R : ℚ) :
    stemToPrice STEM_HEIGHTS.short R = 3 / 125 * R := by
  unfold stemToPrice STEM_HEIGHTS; ring

theorem stemToPrice_medium (R : ℚ) :
    stemToPrice STEM_HEIGHTS.medium R = 21 / 500 * R := by
  unfold stemToPrice STEM_HEIGHTS; ring

theorem stemToPrice_long (R : ℚ) :
    stemToPrice STEM_HEIGHTS.long R = 3 / 50 * R := by
  unfold stemToPrice STEM_HEIGHTS; ring

theorem min_coe_top (q : ℚ) : min ((q : WithTop ℚ)) ⊤ = (q : WithTop ℚ) :=
  min_eq_left le_top

theorem minDistance_singleton (x y : ℚ) :
    minDistance x [y] = ((|x - y| : ℚ) : WithTop ℚ) := by
  simp only [minDistance, List.map, List.foldr]
  exact min_eq_left le_top

theorem minDistance_pair (x a b : ℚ) :
    minDistance x [a, b] = ((min |x - a| |x - b| : ℚ) : WithTop ℚ) := by
  simp only [minDistance, List.map, List.foldr, min_coe_top, ← WithTop.coe_min]

theorem minDistance_triple (x a b c : ℚ) :
    minDistance x [a, b, c] =
      ((min |x - a| (min |x - b| |x - c|) : ℚ) : WithTop ℚ) := by
  simp only [minDistance, List.map, List.foldr, min_coe_top, ← WithTop.coe_min]

theorem minDistance_nonneg (x : ℚ) (occ : List ℚ) :
    (((0 : ℚ) : WithTop ℚ)) ≤ minDistance x occ := by
  induction occ with
  | nil => exact le_top
  | cons y ys ih =>
    simp only [minDistance, List.map, List.foldr] at ih ⊢
    exact le_min (by exact_mod_cast abs_nonneg (x - y)) ih

/-- The best-effort fold of findNonCollidingStemHeight, characterized
over an abstract distance function: the result attains the maximal
minimum distance; when that maximum is positive the first height (in the
order short, medium, long) attaining it is returned; when it is zero the
initial value long survives. -/
theorem foldBest_spec (d : ℚ → WithTop ℚ)
    (h0s : (((0 : ℚ) : WithTop ℚ)) ≤ d STEM_HEIGHTS.short)
    (h0m : (((0 : ℚ) : WithTop ℚ)) ≤ d STEM_HEIGHTS.medium)
    (h0l : (((0 : ℚ) : WithTop ℚ)) ≤ d STEM_HEIGHTS.long) :
    d (([STEM_HEIGHTS.short, STEM_HEIGHTS.medium, STEM_HEIGHTS.long].foldl
        (fun best hd => if best.2 < d hd then (hd, d hd) else best)
        (STEM_HEIGHTS.long, (((0 : ℚ) : WithTop ℚ)))).1) =
      max (d STEM_HEIGHTS.short)
        (max (d STEM_HEIGHTS.medium) (d STEM_HEIGHTS.long)) ∧
    ((((0 : ℚ) : WithTop ℚ)) <
        max (d STEM_HEIGHTS.short)
          (max (d STEM_HEIGHTS.medium) (d STEM_HEIGHTS.long)) →
      (d STEM_HEIGHTS.short =
          max (d STEM_HEIGHTS.short)
            (max (d STEM_HEIGHTS.medium) (d STEM_HEIGHTS.long)) →
        ([STEM_HEIGHTS.short, STEM_HEIGHTS.medium, STEM_HEIGHTS.long].foldl
          (fun best hd => if best.2 < d hd then (hd, d hd) else best)
          (STEM_HEIGHTS.long, (((0 : ℚ) : WithTop ℚ)))).1 =
          STEM_HEIGHTS.short) ∧
      (d STEM_HEIGHTS.short ≠
          max (d STEM_HEIGHTS.short)
            (max (d STEM_HEIGHTS.medium) (d STEM_HEIGHTS.long)) →
        d STEM_HEIGHTS.medium =
          max (d STEM_HEIGHTS.short)
            (max (d STEM_HEIGHTS.medium) (d STEM_HEIGHTS.long)) →
        ([STEM_HEIGHTS.short, STEM_HEIGHTS.medium, STEM_HEIGHTS.long].foldl
          (fun best hd => if best.2 < d hd then (hd, d hd) else best)
          (STEM_HEIGHTS.long, (((0 : ℚ) : WithTop ℚ)))).1 =
          STEM_HEIGHTS.medium) ∧
      (d STEM_HEIGHTS.short ≠
          max (d STEM_HEIGHTS.short)
            (max (d STEM_HEIGHTS.medium) (d STEM_HEIGHTS.long)) →
        d STEM_HEIGHTS.medium ≠
          max (d STEM_HEIGHTS.short)
            (max (d STEM_HEIGHTS.medium) (d STEM_HEIGHTS.long)) →
        ([STEM_HEIGHTS.short, STEM_HEIGHTS.medium, STEM_HEIGHTS.long].foldl
          (fun best hd => if best.2 < d hd then (hd, d hd) else best)
          (STEM_HEIGHTS.long, (((0 : ℚ) : WithTop ℚ)))).1 =
          STEM_HEIGHTS.long)) ∧
    (max (d STEM_HEIGHTS.short)
        (max (d STEM_HEIGHTS.medium) (d STEM_HEIGHTS.long)) =
        (((0 : ℚ) : WithTop ℚ)) →
      ([STEM_HEIGHTS.short, STEM_HEIGHTS.medium, STEM_HEIGHTS.long].foldl
        (fun best hd => if best.2 < d hd then (hd, d hd) else best)
        (STEM_HEIGHTS.long, (((0 : ℚ) : WithTop ℚ)))).1 =
        STEM_HEIGHTS.long) := by
  simp only [List.foldl]
  by_cases c1 : (((0 : ℚ) : WithTop ℚ)) < d STEM_HEIGHTS.short
  · rw [if_pos c1]
    by_cases c2 : d STEM_HEIGHTS.short < d STEM_HEIGHTS.medium
    · rw [if_pos c2]
      by_cases c3 : d STEM_HEIGHTS.medium < d STEM_HEIGHTS.long
      · rw [if_pos c3]
        have hMl : max (d STEM_HEIGHTS.short)
            (max (d STEM_HEIGHTS.medium) (d STEM_HEIGHTS.long)) =
            d STEM_HEIGHTS.long := by
          rw [max_eq_right (le_of_lt c3), max_eq_right (le_of_lt (lt_trans c2 c3))]
        refine ⟨hMl.symm, fun _ => ⟨?_, ?_, fun _ _ => rfl⟩, fun _ => rfl⟩
        · intro haM; rw [hMl] at haM
          exact absurd haM (ne_of_lt (lt_trans c2 c3))
        · intro _ hmM; rw [hMl] at hmM
          exact absurd hmM (ne_of_lt c3)
      · rw [if_neg c3]
        have hMm : max (d STEM_HEIGHTS.short)
            (max (d STEM_HEIGHTS.medium) (d STEM_HEIGHTS.long)) =
            d STEM_HEIGHTS.medium := by
          rw [max_eq_left (not_lt.mp c3), max_eq_right (le_of_lt c2)]
        refine ⟨hMm.symm, fun _ => ⟨?_, fun _ _ => rfl, ?_⟩, ?_⟩
        · intro haM; rw [hMm] at haM; exact absurd haM (ne_of_lt c2)
        · intro _ hmM; exact absurd hMm.symm hmM
        · intro hM0; rw [hMm] at hM0
          exact absurd hM0 (ne_of_gt (lt_trans c1 c2))
    · rw [if_neg c2]
      by_cases c3 : d STEM_HEIGHTS.short < d STEM_HEIGHTS.long
      · rw [if_pos c3]
        have hMl : max (d STEM_HEIGHTS.short)
            (max (d STEM_HEIGHTS.medium) (d STEM_HEIGHTS.long)) =
            d STEM_HEIGHTS.long := by
          rw [max_eq_right (le_of_lt (lt_of_le_of_lt (not_lt.mp c2) c3)),
            max_eq_right (le_of_lt c3)]
        refine ⟨hMl.symm, fun _ => ⟨?_, ?_, fun _ _ => rfl⟩, fun _ => rfl⟩
        · intro haM; rw [hMl] at haM; exact absurd haM (ne_of_lt c3)
        · intro _ hmM; rw [hMl] at hmM
          exact absurd hmM (ne_of_lt (lt_of_le_of_lt (not_lt.mp c2) c3))
      · rw [if_neg c3]
        have hMa : max (d STEM_HEIGHTS.short)
            (max (d STEM_HEIGHTS.medium) (d STEM_HEIGHTS.long)) =
            d STEM_HEIGHTS.short :=
          max_eq_left (max_le (not_lt.mp c2) (not_lt.mp c3))
        refine ⟨hMa.symm, fun _ => ⟨fun _ => rfl, ?_, ?_⟩, ?_⟩
        · intro haM _; exact absurd hMa.symm haM
        · intro haM _; exact absurd hMa.symm haM
        · intro hM0; rw [hMa] at hM0; exact absurd hM0 (ne_of_gt c1)
  · rw [if_neg c1]
    have ha0 : d STEM_HEIGHTS.short = (((0 : ℚ) : WithTop ℚ)) :=
      le_antisymm (not_lt.mp c1) h0s
    by_cases c2 : (((0 : ℚ) : WithTop ℚ)) < d STEM_HEIGHTS.medium
    · rw [if_pos c2]
      by_cases c3 : d STEM_HEIGHTS.medium < d STEM_HEIGHTS.long
      · rw [if_pos c3]
        have hMl : max (d STEM_HEIGHTS.short)
            (max (d STEM_HEIGHTS.medium) (d STEM_HEIGHTS.long)) =
            d STEM_HEIGHTS.long := by
          rw [max_eq_right (le_of_lt c3), ha0,
            max_eq_right (le_of_lt (lt_trans c2 c3))]
        refine ⟨hMl.symm, fun _ => ⟨?_, ?_, fun _ _ => rfl⟩, fun _ => rfl⟩
        · intro haM; rw [hMl, ha0] at haM
          exact absurd haM.symm (ne_of_gt (lt_trans c2 c3))
        · intro _ hmM; rw [hMl] at hmM; exact absurd hmM (ne_of_lt c3)
      · rw [if_neg c3]
        have hMm : max (d STEM_HEIGHTS.short)
            (max (d STEM_HEIGHTS.medium) (d STEM_HEIGHTS.long)) =
            d STEM_HEIGHTS.medium := by
          rw [max_eq_left (not_lt.mp c3), ha0, max_eq_right (le_of_lt c2)]
        refine ⟨hMm.symm, fun _ => ⟨?_, fun _ _ => rfl, ?_⟩, ?_⟩
        · intro haM; rw [hMm, ha0] at haM; exact absurd haM.symm (ne_of_gt c2)
        · intro _ hmM; exact absurd hMm.symm hmM
        · intro hM0; rw [hMm] at hM0; exact absurd hM0 (ne_of_gt c2)
    · rw [if_neg c2]
      have hm0 : d STEM_HEIGHTS.medium = (((0 : ℚ) : WithTop ℚ)) :=
        le_antisymm (not_lt.mp c2) h0m
      by_cases c3 : (((0 : ℚ) : WithTop ℚ)) < d STEM_HEIGHTS.long
      · rw [if_pos c3]
        have hMl : max (d STEM_HEIGHTS.short)
            (max (d STEM_HEIGHTS.medium) (d STEM_HEIGHTS.long)) =
            d STEM_HEIGHTS.long := by
          simp only [ha0, hm0, max_eq_right (le_of_lt c3)]
        refine ⟨hMl.symm, fun _ => ⟨?_, ?_, fun _ _ => rfl⟩, fun _ => rfl⟩
        · intro haM; rw [hMl, ha0] at haM; exact absurd haM.symm (ne_of_gt c3)
        · intro _ hmM; rw [hMl, hm0] at hmM; exact absurd hmM.symm (ne_of_gt c3)
      · rw [if_neg c3]
        have hl0 : d STEM_HEIGHTS.long = (((0 : ℚ) : WithTop ℚ)) :=
          le_antisymm (not_lt.mp c3) h0l
        have hM0 : max (d STEM_HEIGHTS.short)
            (max (d STEM_HEIGHTS.medium) (d STEM_HEIGHTS.long)) =
            (((0 : ℚ) : WithTop ℚ)) := by
          rw [ha0, hm0, hl0, max_self, max_self]
        exact ⟨by rw [hM0, hl0], fun hlt => absurd hM0 (ne_of_gt hlt),
          fun _ => rfl⟩

theorem abs_mid_lt_abs_left (x r : ℚ) (hr : 0 < r)
    (h1 : |x - r| < |x|) (h2 : |x + r| ≤ |x|) : False := by
  rcases abs_cases (x - r) with ⟨e1, _⟩ | ⟨e1, _⟩ <;>
    rcases abs_cases (x + r) with ⟨e2, _⟩ | ⟨e2, _⟩ <;>
      rcases abs_cases x with ⟨e3, _⟩ | ⟨e3, _⟩ <;> linarith

theorem abs_mid_eq_zero_left (x r : ℚ) (hr : 0 < r)
    (h1 : |x - r| ≤ 0) (h2 : |x + r| ≤ |x|) : False := by
  rcases abs_cases (x - r) with ⟨e1, _⟩ | ⟨e1, _⟩ <;>
    rcases abs_cases (x + r) with ⟨e2, _⟩ | ⟨e2, _⟩ <;>
      rcases abs_cases x with ⟨e3, _⟩ | ⟨e3, _⟩ <;> linarith

/-- With a single occupied position whose medium tier collides, the
algorithm never returns medium, and whenever short or long would clear
the minimum separation the returned tier does clear it. -/
theorem findNonColliding_singleton_medium_collides (b y c R : ℚ) (hR : 0 < R)
    (hmed : |b + stemToPrice STEM_HEIGHTS.medium R - y| < c) :
    (findNonCollidingStemHeight b [y] c R = STEM_HEIGHTS.short ∨
     findNonCollidingStemHeight b [y] c R = STEM_HEIGHTS.long) ∧
    ((c ≤ |b + stemToPrice STEM_HEIGHTS.short R - y| ∨
      c ≤ |b + stemToPrice STEM_HEIGHTS.long R - y|) →
      c ≤ |b + stemToPrice (findNonCollidingStemHeight b [y] c R) R - y|) := by
  by_cases hs : |b + stemToPrice STEM_HEIGHTS.short R - y| < c
  · by_cases hl : |b + stemToPrice STEM_HEIGHTS.long R - y| < c
    · -- All three heights collide: the best-effort fallback runs.
      have hfind : findNonCollidingStemHeight b [y] c R =
          bestEffortStemHeight b [y] R := by
        unfold findNonCollidingStemHeight
        simp [hasCollision, hs, hl, hmed]
      have h9 : (0 : ℚ) < 9 / 500 * R := by positivity
      have hxs : b + stemToPrice STEM_HEIGHTS.short R - y =
          (b + stemToPrice STEM_HEIGHTS.medium R - y) - 9 / 500 * R := by
        rw [stemToPrice_short, stemToPrice_medium]; ring
      have hxl : b + stemToPrice STEM_HEIGHTS.long R - y =
          (b + stemToPrice STEM_HEIGHTS.medium R - y) + 9 / 500 * R := by
        rw [stemToPrice_long, stemToPrice_medium]; ring
      have hbe : bestEffortStemHeight b [y] R = STEM_HEIGHTS.short ∨
          bestEffortStemHeight b [y] R = STEM_HEIGHTS.long := by
        unfold bestEffortStemHeight
        simp only [List.foldl, minDistance_singleton]
        set x := b + stemToPrice STEM_HEIGHTS.medium R - y with hx
        rw [hxs, hxl]
        split_ifs with c1 c2 c3 c3 c2 c3 c3
        · exact Or.inr rfl
        · exfalso
          rw [WithTop.coe_lt_coe] at c2
          rw [not_lt, WithTop.coe_le_coe] at c3
          exact abs_mid_lt_abs_left x (9 / 500 * R) h9 c2 c3
        · exact Or.inr rfl
        · exact Or.inl rfl
        · exact Or.inr rfl
        · exfalso
          rw [not_lt, WithTop.coe_le_coe] at c1
          rw [not_lt, WithTop.coe_le_coe] at c3
          exact abs_mid_eq_zero_left x (9 / 500 * R) h9 c1 c3
        · exact Or.inr rfl
        · exact Or.inr rfl
      refine ⟨hfind ▸ hbe, ?_⟩
      rintro (h | h) <;> linarith
    · -- Short and medium collide, long does not: long is returned.
      have hfind : findNonCollidingStemHeight b [y] c R = STEM_HEIGHTS.long := by
        unfold findNonCollidingStemHeight
        simp [hasCollision, hs, hl, hmed]
      rw [hfind]
      exact ⟨Or.inr rfl, fun _ => not_lt.mp hl⟩
  · -- Short does not collide: short is returned first.
    have hfind : findNonCollidingStemHeight b [y] c R = STEM_HEIGHTS.short := by
      unfold findNonCollidingStemHeight
      simp [hasCollision, hs]
    rw [hfind]
    exact ⟨Or.inl rfl, fun _ => not_lt.mp hs⟩

theorem mem_insertByDate (a e : EventWithPosition)
    (l : List EventWithPosition) : a ∈ insertByDate e l ↔ a = e ∨ a ∈ l := by
  induction l with
  | nil => simp [insertByDate]
  | cons f fs ih =>
    unfold insertByDate
    split_ifs with h
    · simp [List.mem_cons]
    · simp only [List.mem_cons, ih]
      tauto

theorem mem_sortByDate (a : EventWithPosition) (l : List EventWithPosition) :
    a ∈ sortByDate l ↔ a ∈ l := by
  induction l with
  | nil => simp [sortByDate]
  | cons e es ih =>
    rw [show sortByDate (e :: es) = insertByDate e (sortByDate es) from rfl,
      mem_insertByDate, ih]
    simp

theorem bestEffort_mem (b R : ℚ) (occ : List ℚ) :
    bestEffortStemHeight b occ R = STEM_HEIGHTS.short ∨
    bestEffortStemHeight b occ R = STEM_HEIGHTS.medium ∨
    bestEffortStemHeight b occ R = STEM_HEIGHTS.long := by
  unfold bestEffortStemHeight
  simp only [List.foldl]
  split_ifs <;> simp

theorem findNonColliding_mem (b c R : ℚ) (occ : List ℚ) :
    findNonCollidingStemHeight b occ c R = STEM_HEIGHTS.short ∨
    findNonCollidingStemHeight b occ c R = STEM_HEIGHTS.medium ∨
    findNonCollidingStemHeight b occ c R = STEM_HEIGHTS.long := by
  unfold findNonCollidingStemHeight
  rcases hf : List.find?
      (fun height => !(hasCollision (b + stemToPrice height R) occ c))
      [STEM_HEIGHTS.short, STEM_HEIGHTS.medium, STEM_HEIGHTS.long] with _ | h
  · simp only [hf]
    exact bestEffort_mem b R occ
  · simp only [hf]
    have hmem := List.mem_of_find?_eq_some hf
    simpa using hmem

/-- Second component of one layout step: the index-to-height map update. -/
theorem layoutStep_snd (ms R : ℚ)
    (acc : List ProcessedEvent × List (Nat × ℚ)) (e : EventWithPosition) :
    (layoutStep ms R acc e).2 = jsMapSet acc.2 e.index
      (if (acc.1.reverse.takeWhile
          (fun prev => decide (e.date - prev.date ≤ CLOSE_THRESHOLD_MS))).isEmpty
       then STEM_HEIGHTS.medium
       else findNonCollidingStemHeight e.basePrice
         ((acc.1.reverse.takeWhile
            (fun prev => decide (e.date - prev.date ≤ CLOSE_THRESHOLD_MS))).map
              (fun p => p.finalY)) ms R) := rfl

theorem jsMapHas_jsMapSet_self [BEq κ] [LawfulBEq κ] (m : List (κ × β))
    (k : κ) (v : β) : jsMapHas (jsMapSet m k v) k = true := by
  unfold jsMapSet jsMapHas
  split_ifs with h
  · rw [List.any_map, List.any_eq_true]
    rw [List.any_eq_true] at h
    obtain ⟨p, hp, hpk⟩ := h
    exact ⟨p, hp, by simp [Function.comp, hpk]⟩
  · simp [List.any_append]

theorem jsMapHas_jsMapSet_of_has [BEq κ] [LawfulBEq κ] (m : List (κ × β))
    (k k' : κ) (v : β) (h : jsMapHas m k' = true) :
    jsMapHas (jsMapSet m k v) k' = true := by
  unfold jsMapHas at h
  unfold jsMapSet jsMapHas
  split_ifs with hk
  · rw [List.any_map, List.any_eq_true]
    rw [List.any_eq_true] at h
    obtain ⟨p, hp, hpk⟩ := h
    refine ⟨p, hp, ?_⟩
    by_cases hc : (p.1 == k) = true
    · have h1 := eq_of_beq hc
      have h2 := eq_of_beq hpk
      simp [Function.comp, hc, ← h1, h2]
    · simp only [Function.comp, Bool.not_eq_true] at hc ⊢
      simp [hc, hpk]
  · simp [List.any_append, h]

theorem jsMapSet_values [BEq κ] (m : List (κ × β)) (k : κ) (v : β)
    (P : β → Prop) (hv : P v) (hm : ∀ p ∈ m, P p.2) :
    ∀ p ∈ jsMapSet m k v, P p.2 := by
  unfold jsMapSet
  split_ifs with h
  · intro p hp
    rw [List.mem_map] at hp
    obtain ⟨q, hq, rfl⟩ := hp
    by_cases hc : (q.1 == k) = true
    · simp only [if_pos hc]; exact hv
    · simp only [if_neg hc]; exact hm q hq
  · intro p hp
    rcases List.mem_append.mp hp with hp | hp
    · exact hm p hp
    · rw [List.mem_singleton] at hp
      rw [hp]; exact hv

theorem jsMapGet_of_has [BEq κ] (m : List (κ × β)) (k : κ)
    (h : jsMapHas m k = true) :
    ∃ v, jsMapGet m k = some v ∧ ∃ p ∈ m, p.2 = v := by
  unfold jsMapHas at h
  unfold jsMapGet
  rw [List.any_eq_true] at h
  obtain ⟨p, hp, hpk⟩ := h
  have hsome : (m.find? (fun q => q.1 == k)).isSome :=
    List.find?_isSome.mpr ⟨p, hp, hpk⟩
  obtain ⟨q, hq⟩ := Option.isSome_iff_exists.mp hsome
  exact ⟨q.2, by rw [hq]; rfl, q, List.mem_of_find?_eq_some hq, rfl⟩

theorem layout_foldl_values (ms R : ℚ) (l : List EventWithPosition) :
    ∀ acc : List ProcessedEvent × List (Nat × ℚ),
    (∀ p ∈ acc.2, p.2 = STEM_HEIGHTS.short ∨ p.2 = STEM_HEIGHTS.medium ∨
      p.2 = STEM_HEIGHTS.long) →
    ∀ p ∈ (l.foldl (layoutStep ms R) acc).2,
      p.2 = STEM_HEIGHTS.short ∨ p.2 = STEM_HEIGHTS.medium ∨
      p.2 = STEM_HEIGHTS.long := by
  induction l with
  | nil => intro acc h; simpa using h
  | cons e es ih =>
    intro acc h
    rw [List.foldl_cons]
    apply ih
    rw [layoutStep_snd]
    refine jsMapSet_values _ _ _
      (fun x => x = STEM_HEIGHTS.short ∨ x = STEM_HEIGHTS.medium ∨
        x = STEM_HEIGHTS.long) ?_ h
    split_ifs with hni
    · exact Or.inr (Or.inl rfl)
    · exact findNonColliding_mem _ _ _ _

theorem layout_foldl_has (ms R : ℚ) (l : List EventWithPosition) :
    ∀ acc : List ProcessedEvent × List (Nat × ℚ), ∀ k,
    jsMapHas acc.2 k = true →
    jsMapHas (l.foldl (layoutStep ms R) acc).2 k = true := by
  induction l with
  | nil => intro acc k h; simpa using h
  | cons e es ih =>
    intro acc k h
    rw [List.foldl_cons]
    apply ih
    rw [layoutStep_snd]
    exact jsMapHas_jsMapSet_of_has _ _ _ _ h

theorem layout_foldl_mem_has (ms R : ℚ) (l : List EventWithPosition) :
    ∀ acc : List ProcessedEvent × List (Nat × ℚ), ∀ e ∈ l,
    jsMapHas (l.foldl (layoutStep ms R) acc).2 e.index = true := by
  induction l with
  | nil => intro acc e he; exact absurd he (List.not_mem_nil e)
  | cons f fs ih =>
    intro acc e he
    rw [List.foldl_cons]
    rcases List.mem_cons.mp he with rfl | he2
    · apply layout_foldl_has
      rw [layoutStep_snd]
      exact jsMapHas_jsMapSet_self _ _ _
    · exact ih _ e he2

/-- When all three heights collide, the search falls through to the
best-effort scan. -/
theorem findNonColliding_eq_bestEffort (b c R : ℚ) (occ : List ℚ)
    (hcs : hasCollision (b + stemToPrice STEM_HEIGHTS.short R) occ c = true)
    (hcm : hasCollision (b + stemToPrice STEM_HEIGHTS.medium R) occ c = true)
    (hcl : hasCollision (b + stemToPrice STEM_HEIGHTS.long R) occ c = true) :
    findNonCollidingStemHeight b occ c R = bestEffortStemHeight b occ R := by
  unfold findNonCollidingStemHeight
  simp only [List.find?, hcs, hcm, hcl, Bool.not_true]

theorem bestEffort_eq_short (b R : ℚ) (occ : List ℚ) (ds dm dl : ℚ)
    (hds : minDistance (b + stemToPrice STEM_HEIGHTS.short R) occ =
      ((ds : ℚ) : WithTop ℚ))
    (hdm : minDistance (b + stemToPrice STEM_HEIGHTS.medium R) occ =
      ((dm : ℚ) : WithTop ℚ))
    (hdl : minDistance (b + stemToPrice STEM_HEIGHTS.long R) occ =
      ((dl : ℚ) : WithTop ℚ))
    (h1 : 0 < ds) (h2 : dm ≤ ds) (h3 : dl ≤ ds) :
    bestEffortStemHeight b occ R = STEM_HEIGHTS.short := by
  obtain ⟨-, hpos, -⟩ := foldBest_spec
    (fun h => minDistance (b + stemToPrice h R) occ)
    (minDistance_nonneg _ _) (minDistance_nonneg _ _) (minDistance_nonneg _ _)
  simp only [hds, hdm, hdl] at hpos
  have hM : max ((ds : ℚ) : WithTop ℚ)
      (max ((dm : ℚ) : WithTop ℚ) ((dl : ℚ) : WithTop ℚ)) =
      ((ds : ℚ) : WithTop ℚ) :=
    max_eq_left (max_le (by exact_mod_cast h2) (by exact_mod_cast h3))
  rw [hM] at hpos
  exact (hpos (by exact_mod_cast h1)).1 rfl

theorem bestEffort_eq_long (b R : ℚ) (occ : List ℚ) (ds dm dl : ℚ)
    (hds : minDistance (b + stemToPrice STEM_HEIGHTS.short R) occ =
      ((ds : ℚ) : WithTop ℚ))
    (hdm : minDistance (b + stemToPrice STEM_HEIGHTS.medium R) occ =
      ((dm : ℚ) : WithTop ℚ))
    (hdl : minDistance (b + stemToPrice STEM_HEIGHTS.long R) occ =
      ((dl : ℚ) : WithTop ℚ))
    (h1 : 0 < dl) (h2 : ds < dl) (h3 : dm < dl) :
    bestEffortStemHeight b occ R = STEM_HEIGHTS.long := by
  obtain ⟨-, hpos, -⟩ := foldBest_spec
    (fun h => minDistance (b + stemToPrice h R) occ)
    (minDistance_nonneg _ _) (minDistance_nonneg _ _) (minDistance_nonneg _ _)
  simp only [hds, hdm, hdl] at hpos
  have hM : max ((ds : ℚ) : WithTop ℚ)
      (max ((dm : ℚ) : WithTop ℚ) ((dl : ℚ) : WithTop ℚ)) =
      ((dl : ℚ) : WithTop ℚ) := by
    have hInner : max ((dm : ℚ) : WithTop ℚ) ((dl : ℚ) : WithTop ℚ) =
        ((dl : ℚ) : WithTop ℚ) :=
      max_eq_right (by exact_mod_cast le_of_lt h3)
    rw [hInner, max_eq_right (by exact_mod_cast le_of_lt h2)]
  rw [hM] at hpos
  refine (hpos (by exact_mod_cast h1)).2.2 ?_ ?_
  · exact fun hc => absurd (WithTop.coe_eq_coe.mp hc) (ne_of_lt h2)
  · exact fun hc => absurd (WithTop.coe_eq_coe.mp hc) (ne_of_lt h3)

theorem bestEffort_eq_long_of_all_zero (b R : ℚ) (occ : List ℚ)
    (hds : minDistance (b + stemToPrice STEM_HEIGHTS.short R) occ =
      (((0 : ℚ)) : WithTop ℚ))
    (hdm : minDistance (b + stemToPrice STEM_HEIGHTS.medium R) occ =
      (((0 : ℚ)) : WithTop ℚ))
    (hdl : minDistance (b + stemToPrice STEM_HEIGHTS.long R) occ =
      (((0 : ℚ)) : WithTop ℚ)) :
    bestEffortStemHeight b occ R = STEM_HEIGHTS.long := by
  obtain ⟨-, -, hzero⟩ := foldBest_spec
    (fun h => minDistance (b + stemToPrice h R) occ)
    (minDistance_nonneg _ _) (minDistance_nonneg _ _) (minDistance_nonneg _ _)
  simp only [hds, hdm, hdl, max_self] at hzero
  exact hzero trivial

/-- C1 (amended): for a two-event input whose events lie within the
90-day proximity window and whose base values are close enough that both
events at the medium tier would violate the minimum separation, the
earlier event is assigned medium and the later event a tier drawn from
short and long, so the two tiers differ; whenever some tier choice for
the later event clears the minimum separation from the earlier event's
resolved position, the returned resolved positions differ by at least
the minimum separation (when no tier clears it the assignment is
best-effort and the positions may be closer). -/
theorem claim_C1_amended (e1 e2 : EventWithPosition) (R : ℚ)
    (hR : 0 < R) (hord : e1.date ≤ e2.date)
    (hwin : e2.date - e1.date ≤ CLOSE_THRESHOLD_MS)
    (hidx : e1.index ≠ e2.index)
    (hcollide : |(e2.basePrice + stemToPrice STEM_HEIGHTS.medium R) -
        (e1.basePrice + stemToPrice STEM_HEIGHTS.medium R)| <
        R * MIN_ICON_SEPARATION_PERCENT) :
    ∃ h2,
      jsMapGet (calculateFlagStemHeights [e1, e2] R) e1.index =
        some STEM_HEIGHTS.medium ∧
      jsMapGet (calculateFlagStemHeights [e1, e2] R) e2.index = some h2 ∧
      (h2 = STEM_HEIGHTS.short ∨ h2 = STEM_HEIGHTS.long) ∧
      h2 ≠ STEM_HEIGHTS.medium ∧
      ((∃ s ∈ [STEM_HEIGHTS.short, STEM_HEIGHTS.medium, STEM_HEIGHTS.long],
          R * MIN_ICON_SEPARATION_PERCENT ≤
            |(e2.basePrice + stemToPrice s R) -
             (e1.basePrice + stemToPrice STEM_HEIGHTS.medium R)|) →
        R * MIN_ICON_SEPARATION_PERCENT ≤
          |(e2.basePrice + stemToPrice h2 R) -
           (e1.basePrice + stemToPrice STEM_HEIGHTS.medium R)|) := by
  obtain ⟨hne, hsep⟩ := findNonColliding_singleton_medium_collides e2.basePrice
    (e1.basePrice + stemToPrice STEM_HEIGHTS.medium R)
    (R * MIN_ICON_SEPARATION_PERCENT) R hR hcollide
  have hmap : calculateFlagStemHeights [e1, e2] R =
      [(e1.index, STEM_HEIGHTS.medium),
       (e2.index, findNonCollidingStemHeight e2.basePrice
          [e1.basePrice + stemToPrice STEM_HEIGHTS.medium R]
          (R * MIN_ICON_SEPARATION_PERCENT) R)] := by
    rw [calculateFlagStemHeights_pair e1 e2 R hord hwin, jsMapSet_nil,
      jsMapSet_singleton_ne _ _ _ _ hidx]
  refine ⟨_, ?_, ?_, hne, ?_, ?_⟩
  · rw [hmap]; exact jsMapGet_pair_fst _ _ _ _
  · rw [hmap]; exact jsMapGet_pair_snd _ _ _ _ hidx
  · rcases hne with h | h <;> rw [h] <;> decide
  · rintro ⟨s, hmem, hssep⟩
    apply hsep
    simp only [List.mem_cons, List.not_mem_nil, or_false] at hmem
    rcases hmem with rfl | rfl | rfl
    · exact Or.inl hssep
    · exact absurd hssep (not_le.mpr hcollide)
    · exact Or.inr hssep

/-- Collision facts for the coincident two-event configuration on a
unit price range: every tier of the later event collides with the
earlier event resolved at medium. -/
theorem coincident_collides_short :
    hasCollision (0 + stemToPrice STEM_HEIGHTS.short 1)
      [0 + stemToPrice STEM_HEIGHTS.medium 1]
      (1 * MIN_ICON_SEPARATION_PERCENT) = true := by
  simp only [hasCollision, List.any_cons, List.any_nil, Bool.or_false,
    decide_eq_true_eq]
  norm_num [stemToPrice, STEM_HEIGHTS, MIN_ICON_SEPARATION_PERCENT, abs]

theorem coincident_collides_medium :
    hasCollision (0 + stemToPrice STEM_HEIGHTS.medium 1)
      [0 + stemToPrice STEM_HEIGHTS.medium 1]
      (1 * MIN_ICON_SEPARATION_PERCENT) = true := by
  simp only [hasCollision, List.any_cons, List.any_nil, Bool.or_false,
    decide_eq_true_eq]
  norm_num [stemToPrice, STEM_HEIGHTS, MIN_ICON_SEPARATION_PERCENT, abs]

theorem coincident_collides_long :
    hasCollision (0 + stemToPrice STEM_HEIGHTS.long 1)
      [0 + stemToPrice STEM_HEIGHTS.medium 1]
      (1 * MIN_ICON_SEPARATION_PERCENT) = true := by
  simp only [hasCollision, List.any_cons, List.any_nil, Bool.or_false,
    decide_eq_true_eq]
  norm_num [stemToPrice, STEM_HEIGHTS, MIN_ICON_SEPARATION_PERCENT, abs]

/-- Distance facts for the coincident two-event configuration. -/
theorem coincident_minDistance_short :
    minDistance (0 + stemToPrice STEM_HEIGHTS.short 1)
      [0 + stemToPrice STEM_HEIGHTS.medium 1] =
      ((9 / 500 : ℚ) : WithTop ℚ) := by
  rw [minDistance_singleton]
  norm_cast
  norm_num [stemToPrice, STEM_HEIGHTS, abs]

theorem coincident_minDistance_medium :
    minDistance (0 + stemToPrice STEM_HEIGHTS.medium 1)
      [0 + stemToPrice STEM_HEIGHTS.medium 1] =
      (((0 : ℚ)) : WithTop ℚ) := by
  rw [minDistance_singleton]
  norm_cast
  norm_num [stemToPrice, STEM_HEIGHTS, abs]

theorem coincident_minDistance_long :
    minDistance (0 + stemToPrice STEM_HEIGHTS.long 1)
      [0 + stemToPrice STEM_HEIGHTS.medium 1] =
      ((9 / 500 : ℚ) : WithTop ℚ) := by
  rw [minDistance_singleton]
  norm_cast
  norm_num [stemToPrice, STEM_HEIGHTS, abs]

/-- Evaluation of the collision search for two coincident base values on
a unit price range: all three tiers collide with the first event
resolved position and the best-effort scan settles on short. -/
theorem findNonColliding_coincident_eval :
    findNonCollidingStemHeight 0 [0 + stemToPrice STEM_HEIGHTS.medium 1]
      (1 * MIN_ICON_SEPARATION_PERCENT) 1 = STEM_HEIGHTS.short := by
  rw [findNonColliding_eq_bestEffort _ _ _ _ coincident_collides_short
    coincident_collides_medium coincident_collides_long]
  exact bestEffort_eq_short _ _ _ (9 / 500) 0 (9 / 500)
    coincident_minDistance_short coincident_minDistance_medium
    coincident_minDistance_long (by norm_num) (by norm_num) (by norm_num)

/-- C1 counterexample: two events ten days apart sharing a base value.
Both collide at the medium tier, yet the algorithm returns medium for
the earlier event (so the pair is not drawn from short and long) and the
resolved positions end up closer than the minimum separation. -/
theorem claim_C1_counterexample :
    ((864000000 : Int) - 0 ≤ CLOSE_THRESHOLD_MS) ∧
    (|((0 : ℚ) + stemToPrice STEM_HEIGHTS.medium 1) -
       ((0 : ℚ) + stemToPrice STEM_HEIGHTS.medium 1)| <
      1 * MIN_ICON_SEPARATION_PERCENT) ∧
    jsMapGet (calculateFlagStemHeights
      [⟨0, 0, 0⟩, ⟨864000000, 1, 0⟩] 1) 0 = some STEM_HEIGHTS.medium ∧
    jsMapGet (calculateFlagStemHeights
      [⟨0, 0, 0⟩, ⟨864000000, 1, 0⟩] 1) 1 = some STEM_HEIGHTS.short ∧
    ¬ (STEM_HEIGHTS.medium = STEM_HEIGHTS.short ∨
       STEM_HEIGHTS.medium = STEM_HEIGHTS.long) ∧
    |((0 : ℚ) + stemToPrice STEM_HEIGHTS.medium 1) -
      ((0 : ℚ) + stemToPrice STEM_HEIGHTS.short 1)| <
      1 * MIN_ICON_SEPARATION_PERCENT := by
  have hpair : calculateFlagStemHeights [⟨0, 0, 0⟩, ⟨864000000, 1, 0⟩] 1 =
      [(0, STEM_HEIGHTS.medium),
       (1, findNonCollidingStemHeight 0 [0 + stemToPrice STEM_HEIGHTS.medium 1]
          (1 * MIN_ICON_SEPARATION_PERCENT) 1)] := by
    rw [calculateFlagStemHeights_pair _ _ _ (by decide) (by decide),
      jsMapSet_nil, jsMapSet_singleton_ne _ _ _ _ (by decide)]
  refine ⟨by decide,
    by norm_num [stemToPrice, STEM_HEIGHTS, MIN_ICON_SEPARATION_PERCENT, abs],
    ?_, ?_, by norm_num [STEM_HEIGHTS],
    by norm_num [stemToPrice, STEM_HEIGHTS, MIN_ICON_SEPARATION_PERCENT, abs]⟩
  · rw [hpair]; exact jsMapGet_pair_fst _ _ _ _
  · rw [hpair, findNonColliding_coincident_eval]
    exact jsMapGet_pair_snd _ _ _ _ (by decide)

/-- C1 witness: the amended claim applied to a concrete pair of events
ten days apart with coinciding base values on a unit price range. -/
theorem claim_C1_witness :
    (0 : ℚ) < 1 ∧
    ∃ h2,
      jsMapGet (calculateFlagStemHeights
        [⟨0, 0, 0⟩, ⟨864000000, 1, 0⟩] 1) 0 = some STEM_HEIGHTS.medium ∧
      jsMapGet (calculateFlagStemHeights
        [⟨0, 0, 0⟩, ⟨864000000, 1, 0⟩] 1) 1 = some h2 ∧
      (h2 = STEM_HEIGHTS.short ∨ h2 = STEM_HEIGHTS.long) ∧
      h2 ≠ STEM_HEIGHTS.medium ∧
      ((∃ s ∈ [STEM_HEIGHTS.short, STEM_HEIGHTS.medium, STEM_HEIGHTS.long],
          1 * MIN_ICON_SEPARATION_PERCENT ≤
            |((0 : ℚ) + stemToPrice s 1) -
             ((0 : ℚ) + stemToPrice STEM_HEIGHTS.medium 1)|) →
        1 * MIN_ICON_SEPARATION_PERCENT ≤
          |((0 : ℚ) + stemToPrice h2 1) -
           ((0 : ℚ) + stemToPrice STEM_HEIGHTS.medium 1)|) :=
  ⟨by norm_num,
   claim_C1_amended ⟨0, 0, 0⟩ ⟨864000000, 1, 0⟩ 1 (by norm_num) (by decide)
     (by decide) (by decide)
     (by norm_num [stemToPrice, STEM_HEIGHTS, MIN_ICON_SEPARATION_PERCENT, abs])⟩

/-- Numeric values of the resolved positions in the counterexample
inputs (unit price range). -/
theorem pos_s0 : (0 : ℚ) + stemToPrice STEM_HEIGHTS.short 1 = 3 / 125 := by
  norm_num [stemToPrice, STEM_HEIGHTS]

theorem pos_m0 : (0 : ℚ) + stemToPrice STEM_HEIGHTS.medium 1 = 21 / 500 := by
  norm_num [stemToPrice, STEM_HEIGHTS]

theorem pos_l0 : (0 : ℚ) + stemToPrice STEM_HEIGHTS.long 1 = 3 / 50 := by
  norm_num [stemToPrice, STEM_HEIGHTS]

theorem pos_nm : (-9 / 500 : ℚ) + stemToPrice STEM_HEIGHTS.medium 1 = 3 / 125 := by
  norm_num [stemToPrice, STEM_HEIGHTS]

theorem pos_ps : (9 / 500 : ℚ) + stemToPrice STEM_HEIGHTS.short 1 = 21 / 500 := by
  norm_num [stemToPrice, STEM_HEIGHTS]

theorem pos_pm : (9 / 500 : ℚ) + stemToPrice STEM_HEIGHTS.medium 1 = 3 / 50 := by
  norm_num [stemToPrice, STEM_HEIGHTS]

theorem pos_pl : (9 / 500 : ℚ) + stemToPrice STEM_HEIGHTS.long 1 = 39 / 500 := by
  norm_num [stemToPrice, STEM_HEIGHTS]

/-- All-tier collision facts for the fourth event of the four-event
counterexample input: its occupied positions are exactly the three
candidate positions. -/
theorem ex4_collides_short :
    hasCollision (0 + stemToPrice STEM_HEIGHTS.short 1)
      [9 / 500 + stemToPrice STEM_HEIGHTS.short 1,
       0 + stemToPrice STEM_HEIGHTS.long 1,
       -9 / 500 + stemToPrice STEM_HEIGHTS.medium 1]
      (1 * MIN_ICON_SEPARATION_PERCENT) = true := by
  simp only [hasCollision, List.any_cons, List.any_nil, Bool.or_false,
    decide_eq_true_eq]
  norm_num [stemToPrice, STEM_HEIGHTS, MIN_ICON_SEPARATION_PERCENT, abs]

theorem ex4_collides_medium :
    hasCollision (0 + stemToPrice STEM_HEIGHTS.medium 1)
      [9 / 500 + stemToPrice STEM_HEIGHTS.short 1,
       0 + stemToPrice STEM_HEIGHTS.long 1,
       -9 / 500 + stemToPrice STEM_HEIGHTS.medium 1]
      (1 * MIN_ICON_SEPARATION_PERCENT) = true := by
  simp only [hasCollision, List.any_cons, List.any_nil, Bool.or_false,
    decide_eq_true_eq]
  norm_num [stemToPrice, STEM_HEIGHTS, MIN_ICON_SEPARATION_PERCENT, abs]

theorem ex4_collides_long :
    hasCollision (0 + stemToPrice STEM_HEIGHTS.long 1)
      [9 / 500 + stemToPrice STEM_HEIGHTS.short 1,
       0 + stemToPrice STEM_HEIGHTS.long 1,
       -9 / 500 + stemToPrice STEM_HEIGHTS.medium 1]
      (1 * MIN_ICON_SEPARATION_PERCENT) = true := by
  simp only [hasCollision, List.any_cons, List.any_nil, Bool.or_false,
    decide_eq_true_eq]
  norm_num [stemToPrice, STEM_HEIGHTS, MIN_ICON_SEPARATION_PERCENT, abs]

/-- Every tier of the fourth event lands exactly on an occupied
position: all minimum distances are zero. -/
theorem ex4_minDistance_short :
    minDistance (0 + stemToPrice STEM_HEIGHTS.short 1)
      [9 / 500 + stemToPrice STEM_HEIGHTS.short 1,
       0 + stemToPrice STEM_HEIGHTS.long 1,
       -9 / 500 + stemToPrice STEM_HEIGHTS.medium 1] =
      (((0 : ℚ)) : WithTop ℚ) := by
  rw [minDistance_triple, pos_s0, pos_ps, pos_l0, pos_nm]
  norm_cast
  norm_num [abs, min_def]

theorem ex4_minDistance_medium :
    minDistance (0 + stemToPrice STEM_HEIGHTS.medium 1)
      [9 / 500 + stemToPrice STEM_HEIGHTS.short 1,
       0 + stemToPrice STEM_HEIGHTS.long 1,
       -9 / 500 + stemToPrice STEM_HEIGHTS.medium 1] =
      (((0 : ℚ)) : WithTop ℚ) := by
  rw [minDistance_triple, pos_m0, pos_ps, pos_l0, pos_nm]
  norm_cast
  norm_num [abs, min_def]

theorem ex4_minDistance_long :
    minDistance (0 + stemToPrice STEM_HEIGHTS.long 1)
      [9 / 500 + stemToPrice STEM_HEIGHTS.short 1,
       0 + stemToPrice STEM_HEIGHTS.long 1,
       -9 / 500 + stemToPrice STEM_HEIGHTS.medium 1] =
      (((0 : ℚ)) : WithTop ℚ) := by
  rw [minDistance_triple, pos_l0, pos_ps, pos_nm]
  norm_cast
  norm_num [abs, min_def]

/-- Stem height of the second event of the four-event input. -/
theorem ex4_eval_e1 :
    findNonCollidingStemHeight 0
      [-9 / 500 + stemToPrice STEM_HEIGHTS.medium 1]
      (1 * MIN_ICON_SEPARATION_PERCENT) 1 = STEM_HEIGHTS.long := by
  have hcs : hasCollision (0 + stemToPrice STEM_HEIGHTS.short 1)
      [-9 / 500 + stemToPrice STEM_HEIGHTS.medium 1]
      (1 * MIN_ICON_SEPARATION_PERCENT) = true := by
    simp only [hasCollision, List.any_cons, List.any_nil, Bool.or_false,
      decide_eq_true_eq]
    norm_num [stemToPrice, STEM_HEIGHTS, MIN_ICON_SEPARATION_PERCENT, abs]
  have hcm : hasCollision (0 + stemToPrice STEM_HEIGHTS.medium 1)
      [-9 / 500 + stemToPrice STEM_HEIGHTS.medium 1]
      (1 * MIN_ICON_SEPARATION_PERCENT) = true := by
    simp only [hasCollision, List.any_cons, List.any_nil, Bool.or_false,
      decide_eq_true_eq]
    norm_num [stemToPrice, STEM_HEIGHTS, MIN_ICON_SEPARATION_PERCENT, abs]
  have hcl : hasCollision (0 + stemToPrice STEM_HEIGHTS.long 1)
      [-9 / 500 + stemToPrice STEM_HEIGHTS.medium 1]
      (1 * MIN_ICON_SEPARATION_PERCENT) = true := by
    simp only [hasCollision, List.any_cons, List.any_nil, Bool.or_false,
      decide_eq_true_eq]
    norm_num [stemToPrice, STEM_HEIGHTS, MIN_ICON_SEPARATION_PERCENT, abs]
  rw [findNonColliding_eq_bestEffort _ _ _ _ hcs hcm hcl]
  refine bestEffort_eq_long _ _ _ 0 (9 / 500) (9 / 250) ?_ ?_ ?_
    (by norm_num) (by norm_num) (by norm_num)
  · rw [minDistance_singleton, pos_s0, pos_nm]
    norm_cast
    norm_num [abs]
  · rw [minDistance_singleton, pos_m0, pos_nm]
    norm_cast
    norm_num [abs]
  · rw [minDistance_singleton, pos_l0, pos_nm]
    norm_cast
    norm_num [abs]

/-- Stem height of the third event of the four-event input. -/
theorem ex4_eval_e2 :
    findNonCollidingStemHeight (9 / 500)
      [0 + stemToPrice STEM_HEIGHTS.long 1,
       -9 / 500 + stemToPrice STEM_HEIGHTS.medium 1]
      (1 * MIN_ICON_SEPARATION_PERCENT) 1 = STEM_HEIGHTS.short := by
  have hcs : hasCollision (9 / 500 + stemToPrice STEM_HEIGHTS.short 1)
      [0 + stemToPrice STEM_HEIGHTS.long 1,
       -9 / 500 + stemToPrice STEM_HEIGHTS.medium 1]
      (1 * MIN_ICON_SEPARATION_PERCENT) = true := by
    simp only [hasCollision, List.any_cons, List.any_nil, Bool.or_false,
      decide_eq_true_eq]
    norm_num [stemToPrice, STEM_HEIGHTS, MIN_ICON_SEPARATION_PERCENT, abs]
  have hcm : hasCollision (9 / 500 + stemToPrice STEM_HEIGHTS.medium 1)
      [0 + stemToPrice STEM_HEIGHTS.long 1,
       -9 / 500 + stemToPrice STEM_HEIGHTS.medium 1]
      (1 * MIN_ICON_SEPARATION_PERCENT) = true := by
    simp only [hasCollision, List.any_cons, List.any_nil, Bool.or_false,
      decide_eq_true_eq]
    norm_num [stemToPrice, STEM_HEIGHTS, MIN_ICON_SEPARATION_PERCENT, abs]
  have hcl : hasCollision (9 / 500 + stemToPrice STEM_HEIGHTS.long 1)
      [0 + stemToPrice STEM_HEIGHTS.long 1,
       -9 / 500 + stemToPrice STEM_HEIGHTS.medium 1]
      (1 * MIN_ICON_SEPARATION_PERCENT) = true := by
    simp only [hasCollision, List.any_cons, List.any_nil, Bool.or_false,
      decide_eq_true_eq]
    norm_num [stemToPrice, STEM_HEIGHTS, MIN_ICON_SEPARATION_PERCENT, abs]
  rw [findNonColliding_eq_bestEffort _ _ _ _ hcs hcm hcl]
  refine bestEffort_eq_short _ _ _ (9 / 500) 0 (9 / 500) ?_ ?_ ?_
    (by norm_num) (by norm_num) (by norm_num)
  · rw [minDistance_pair, pos_ps, pos_l0, pos_nm]
    norm_cast
    norm_num [abs, min_def]
  · rw [minDistance_pair, pos_pm, pos_l0, pos_nm]
    norm_cast
    norm_num [abs, min_def]
  · rw [minDistance_pair, pos_pl, pos_l0, pos_nm]
    norm_cast
    norm_num [abs, min_def]

/-- Stem height of the fourth event of the four-event input: the
degenerate all-zero tie, resolved to long by the fold initialization. -/
theorem ex4_eval_e3 :
    findNonCollidingStemHeight 0
      [9 / 500 + stemToPrice STEM_HEIGHTS.short 1,
       0 + stemToPrice STEM_HEIGHTS.long 1,
       -9 / 500 + stemToPrice STEM_HEIGHTS.medium 1]
      (1 * MIN_ICON_SEPARATION_PERCENT) 1 = STEM_HEIGHTS.long := by
  rw [findNonColliding_eq_bestEffort _ _ _ _ ex4_collides_short
    ex4_collides_medium ex4_collides_long]
  exact bestEffort_eq_long_of_all_zero _ _ _ ex4_minDistance_short
    ex4_minDistance_medium ex4_minDistance_long

/-- Full evaluation of the four-event counterexample input. -/
theorem ex4_map_eval :
    calculateFlagStemHeights
      [⟨0, 0, -9 / 500⟩, ⟨1, 1, 0⟩, ⟨2, 2, 9 / 500⟩, ⟨3, 3, 0⟩] 1 =
      [(0, STEM_HEIGHTS.medium), (1, STEM_HEIGHTS.long),
       (2, STEM_HEIGHTS.short), (3, STEM_HEIGHTS.long)] := by
  have s0 : calculateFlagStemHeights
      [⟨0, 0, -9 / 500⟩, ⟨1, 1, 0⟩, ⟨2, 2, 9 / 500⟩, ⟨3, 3, 0⟩] 1 =
      (List.foldl (layoutStep (1 * MIN_ICON_SEPARATION_PERCENT) 1) ([], [])
        [⟨0, 0, -9 / 500⟩, ⟨1, 1, 0⟩, ⟨2, 2, 9 / 500⟩, ⟨3, 3, 0⟩]).2 := rfl
  rw [s0, List.foldl_cons]
  have s1 : layoutStep (1 * MIN_ICON_SEPARATION_PERCENT) 1 ([], [])
      ⟨0, 0, -9 / 500⟩ =
      ([⟨0, 0, -9 / 500, -9 / 500 + stemToPrice STEM_HEIGHTS.medium 1,
          STEM_HEIGHTS.medium⟩],
       [(0, STEM_HEIGHTS.medium)]) := rfl
  rw [s1, List.foldl_cons]
  have s2 : layoutStep (1 * MIN_ICON_SEPARATION_PERCENT) 1
      ([⟨0, 0, -9 / 500, -9 / 500 + stemToPrice STEM_HEIGHTS.medium 1,
          STEM_HEIGHTS.medium⟩],
       [(0, STEM_HEIGHTS.medium)]) ⟨1, 1, 0⟩ =
      ([⟨0, 0, -9 / 500, -9 / 500 + stemToPrice STEM_HEIGHTS.medium 1,
          STEM_HEIGHTS.medium⟩,
        ⟨1, 1, 0,
          0 + stemToPrice (findNonCollidingStemHeight 0
            [-9 / 500 + stemToPrice STEM_HEIGHTS.medium 1]
            (1 * MIN_ICON_SEPARATION_PERCENT) 1) 1,
          findNonCollidingStemHeight 0
            [-9 / 500 + stemToPrice STEM_HEIGHTS.medium 1]
            (1 * MIN_ICON_SEPARATION_PERCENT) 1⟩],
       [(0, STEM_HEIGHTS.medium),
        (1, findNonCollidingStemHeight 0
          [-9 / 500 + stemToPrice STEM_HEIGHTS.medium 1]
          (1 * MIN_ICON_SEPARATION_PERCENT) 1)]) := rfl
  rw [s2, ex4_eval_e1, List.foldl_cons]
  have s3 : layoutStep (1 * MIN_ICON_SEPARATION_PERCENT) 1
      ([⟨0, 0, -9 / 500, -9 / 500 + stemToPrice STEM_HEIGHTS.medium 1,
          STEM_HEIGHTS.medium⟩,
        ⟨1, 1, 0, 0 + stemToPrice STEM_HEIGHTS.long 1, STEM_HEIGHTS.long⟩],
       [(0, STEM_HEIGHTS.medium), (1, STEM_HEIGHTS.long)]) ⟨2, 2, 9 / 500⟩ =
      ([⟨0, 0, -9 / 500, -9 / 500 + stemToPrice STEM_HEIGHTS.medium 1,
          STEM_HEIGHTS.medium⟩,
        ⟨1, 1, 0, 0 + stemToPrice STEM_HEIGHTS.long 1, STEM_HEIGHTS.long⟩,
        ⟨2, 2, 9 / 500,
          9 / 500 + stemToPrice (findNonCollidingStemHeight (9 / 500)
            [0 + stemToPrice STEM_HEIGHTS.long 1,
             -9 / 500 + stemToPrice STEM_HEIGHTS.medium 1]
            (1 * MIN_ICON_SEPARATION_PERCENT) 1) 1,
          findNonCollidingStemHeight (9 / 500)
            [0 + stemToPrice STEM_HEIGHTS.long 1,
             -9 / 500 + stemToPrice STEM_HEIGHTS.medium 1]
            (1 * MIN_ICON_SEPARATION_PERCENT) 1⟩],
       [(0, STEM_HEIGHTS.medium), (1, STEM_HEIGHTS.long),
        (2, findNonCollidingStemHeight (9 / 500)
          [0 + stemToPrice STEM_HEIGHTS.long 1,
           -9 / 500 + stemToPrice STEM_HEIGHTS.medium 1]
          (1 * MIN_ICON_SEPARATION_PERCENT) 1)]) := rfl
  rw [s3, ex4_eval_e2, List.foldl_cons]
  have s4 : layoutStep (1 * MIN_ICON_SEPARATION_PERCENT) 1
      ([⟨0, 0, -9 / 500, -9 / 500 + stemToPrice STEM_HEIGHTS.medium 1,
          STEM_HEIGHTS.medium⟩,
        ⟨1, 1, 0, 0 + stemToPrice STEM_HEIGHTS.long 1, STEM_HEIGHTS.long⟩,
        ⟨2, 2, 9 / 500, 9 / 500 + stemToPrice STEM_HEIGHTS.short 1,
          STEM_HEIGHTS.short⟩],
       [(0, STEM_HEIGHTS.medium), (1, STEM_HEIGHTS.long),
        (2, STEM_HEIGHTS.short)]) ⟨3, 3, 0⟩ =
      ([⟨0, 0, -9 / 500, -9 / 500 + stemToPrice STEM_HEIGHTS.medium 1,
          STEM_HEIGHTS.medium⟩,
        ⟨1, 1, 0, 0 + stemToPrice STEM_HEIGHTS.long 1, STEM_HEIGHTS.long⟩,
        ⟨2, 2, 9 / 500, 9 / 500 + stemToPrice STEM_HEIGHTS.short 1,
          STEM_HEIGHTS.short⟩,
        ⟨3, 3, 0,
          0 + stemToPrice (findNonCollidingStemHeight 0
            [9 / 500 + stemToPrice STEM_HEIGHTS.short 1,
             0 + stemToPrice STEM_HEIGHTS.long 1,
             -9 / 500 + stemToPrice STEM_HEIGHTS.medium 1]
            (1 * MIN_ICON_SEPARATION_PERCENT) 1) 1,
          findNonCollidingStemHeight 0
            [9 / 500 + stemToPrice STEM_HEIGHTS.short 1,
             0 + stemToPrice STEM_HEIGHTS.long 1,
             -9 / 500 + stemToPrice STEM_HEIGHTS.medium 1]
            (1 * MIN_ICON_SEPARATION_PERCENT) 1⟩],
       [(0, STEM_HEIGHTS.medium), (1, STEM_HEIGHTS.long),
        (2, STEM_HEIGHTS.short),
        (3, findNonCollidingStemHeight 0
          [9 / 500 + stemToPrice STEM_HEIGHTS.short 1,
           0 + stemToPrice STEM_HEIGHTS.long 1,
           -9 / 500 + stemToPrice STEM_HEIGHTS.medium 1]
          (1 * MIN_ICON_SEPARATION_PERCENT) 1)]) := rfl
  rw [s4, ex4_eval_e3, List.foldl_nil]

/-- C8 (amended): calculateFlagStemHeights is total, assigning every
event a tier from short, medium, long; when every tier collides, the
tier returned by findNonCollidingStemHeight attains the maximal minimum
distance to the occupied positions, and among tiers tied at that
maximum the first in the order short, medium, long is returned when the
maximum is positive — but when the maximal minimum distance is zero the
initialization of the scan makes it return long instead of the first
tier in order. -/
theorem claim_C8_amended :
    (∀ (events : List EventWithPosition) (R : ℚ), ∀ e ∈ events,
      ∃ h, jsMapGet (calculateFlagStemHeights events R) e.index = some h ∧
        (h = STEM_HEIGHTS.short ∨ h = STEM_HEIGHTS.medium ∨
         h = STEM_HEIGHTS.long)) ∧
    (∀ (b c R : ℚ) (occ : List ℚ) (ds dm dl M : WithTop ℚ) (r : ℚ),
      minDistance (b + stemToPrice STEM_HEIGHTS.short R) occ = ds →
      minDistance (b + stemToPrice STEM_HEIGHTS.medium R) occ = dm →
      minDistance (b + stemToPrice STEM_HEIGHTS.long R) occ = dl →
      M = max ds (max dm dl) →
      r = findNonCollidingStemHeight b occ c R →
      hasCollision (b + stemToPrice STEM_HEIGHTS.short R) occ c = true →
      hasCollision (b + stemToPrice STEM_HEIGHTS.medium R) occ c = true →
      hasCollision (b + stemToPrice STEM_HEIGHTS.long R) occ c = true →
      minDistance (b + stemToPrice r R) occ = M ∧
      ((((0 : ℚ)) : WithTop ℚ) < M →
        (ds = M → r = STEM_HEIGHTS.short) ∧
        (ds ≠ M → dm = M → r = STEM_HEIGHTS.medium) ∧
        (ds ≠ M → dm ≠ M → r = STEM_HEIGHTS.long)) ∧
      (M = (((0 : ℚ)) : WithTop ℚ) → r = STEM_HEIGHTS.long)) := by
  constructor
  · intro events R e he
    have hne : events.isEmpty = false := by
      cases events with
      | nil => exact absurd he (List.not_mem_nil e)
      | cons f fs => rfl
    unfold calculateFlagStemHeights
    rw [if_neg (by simp [hne])]
    obtain ⟨v, hget, p, hp, hpv⟩ := jsMapGet_of_has _ _
      (layout_foldl_mem_has (R * MIN_ICON_SEPARATION_PERCENT) R
        (sortByDate events) ([], []) e ((mem_sortByDate e events).mpr he))
    refine ⟨v, hget, ?_⟩
    have hvals := layout_foldl_values (R * MIN_ICON_SEPARATION_PERCENT) R
      (sortByDate events) ([], [])
      (by intro q hq; exact absurd hq (List.not_mem_nil q)) p hp
    exact hpv ▸ hvals
  · intro b c R occ ds dm dl M r hds hdm hdl hM hr hcs hcm hcl
    subst hds; subst hdm; subst hdl; subst hM; subst hr
    rw [findNonColliding_eq_bestEffort _ _ _ _ hcs hcm hcl]
    obtain ⟨h1, h2, h3⟩ := foldBest_spec
      (fun h => minDistance (b + stemToPrice h R) occ)
      (minDistance_nonneg _ _) (minDistance_nonneg _ _)
      (minDistance_nonneg _ _)
    exact ⟨h1, h2, h3⟩

/-- C8 counterexample: a four-event input whose last event reaches the
all-tiers-collide case with every tier at minimum distance zero from
the occupied positions (a three-way tie at the maximum); the tie order
short, medium, long would select short, but the algorithm assigns
long. -/
theorem claim_C8_counterexample :
    (hasCollision (0 + stemToPrice STEM_HEIGHTS.short 1)
        [9 / 500 + stemToPrice STEM_HEIGHTS.short 1,
         0 + stemToPrice STEM_HEIGHTS.long 1,
         -9 / 500 + stemToPrice STEM_HEIGHTS.medium 1]
        (1 * MIN_ICON_SEPARATION_PERCENT) = true ∧
      hasCollision (0 + stemToPrice STEM_HEIGHTS.medium 1)
        [9 / 500 + stemToPrice STEM_HEIGHTS.short 1,
         0 + stemToPrice STEM_HEIGHTS.long 1,
         -9 / 500 + stemToPrice STEM_HEIGHTS.medium 1]
        (1 * MIN_ICON_SEPARATION_PERCENT) = true ∧
      hasCollision (0 + stemToPrice STEM_HEIGHTS.long 1)
        [9 / 500 + stemToPrice STEM_HEIGHTS.short 1,
         0 + stemToPrice STEM_HEIGHTS.long 1,
         -9 / 500 + stemToPrice STEM_HEIGHTS.medium 1]
        (1 * MIN_ICON_SEPARATION_PERCENT) = true) ∧
    (minDistance (0 + stemToPrice STEM_HEIGHTS.short 1)
        [9 / 500 + stemToPrice STEM_HEIGHTS.short 1,
         0 + stemToPrice STEM_HEIGHTS.long 1,
         -9 / 500 + stemToPrice STEM_HEIGHTS.medium 1] =
        (((0 : ℚ)) : WithTop ℚ) ∧
      minDistance (0 + stemToPrice STEM_HEIGHTS.medium 1)
        [9 / 500 + stemToPrice STEM_HEIGHTS.short 1,
         0 + stemToPrice STEM_HEIGHTS.long 1,
         -9 / 500 + stemToPrice STEM_HEIGHTS.medium 1] =
        (((0 : ℚ)) : WithTop ℚ) ∧
      minDistance (0 + stemToPrice STEM_HEIGHTS.long 1)
        [9 / 500 + stemToPrice STEM_HEIGHTS.short 1,
         0 + stemToPrice STEM_HEIGHTS.long 1,
         -9 / 500 + stemToPrice STEM_HEIGHTS.medium 1] =
        (((0 : ℚ)) : WithTop ℚ)) ∧
    jsMapGet (calculateFlagStemHeights
      [⟨0, 0, -9 / 500⟩, ⟨1, 1, 0⟩, ⟨2, 2, 9 / 500⟩, ⟨3, 3, 0⟩] 1) 3 =
      some STEM_HEIGHTS.long ∧
    STEM_HEIGHTS.long ≠ STEM_HEIGHTS.short := by
  refine ⟨⟨ex4_collides_short, ex4_collides_medium, ex4_collides_long⟩,
    ⟨ex4_minDistance_short, ex4_minDistance_medium, ex4_minDistance_long⟩,
    ?_, by norm_num [STEM_HEIGHTS]⟩
  rw [ex4_map_eval]
  rfl

/-- C8 witness: totality applied to a singleton input, and the
all-collide characterization applied to the coincident two-event
configuration, where the maximum minimum distance is positive and
attained by short. -/
theorem claim_C8_witness :
    (∃ h, jsMapGet (calculateFlagStemHeights [⟨0, 0, 0⟩] 1) 0 = some h ∧
      (h = STEM_HEIGHTS.short ∨ h = STEM_HEIGHTS.medium ∨
       h = STEM_HEIGHTS.long)) ∧
    (minDistance (0 + stemToPrice (findNonCollidingStemHeight 0
        [0 + stemToPrice STEM_HEIGHTS.medium 1]
        (1 * MIN_ICON_SEPARATION_PERCENT) 1) 1)
        [0 + stemToPrice STEM_HEIGHTS.medium 1] =
      max ((9 / 500 : ℚ) : WithTop ℚ)
        (max (((0 : ℚ)) : WithTop ℚ) ((9 / 500 : ℚ) : WithTop ℚ)) ∧
      ((((0 : ℚ)) : WithTop ℚ) <
          max ((9 / 500 : ℚ) : WithTop ℚ)
            (max (((0 : ℚ)) : WithTop ℚ) ((9 / 500 : ℚ) : WithTop ℚ)) →
        (((9 / 500 : ℚ) : WithTop ℚ) =
            max ((9 / 500 : ℚ) : WithTop ℚ)
              (max (((0 : ℚ)) : WithTop ℚ) ((9 / 500 : ℚ) : WithTop ℚ)) →
          findNonCollidingStemHeight 0
            [0 + stemToPrice STEM_HEIGHTS.medium 1]
            (1 * MIN_ICON_SEPARATION_PERCENT) 1 = STEM_HEIGHTS.short) ∧
        (((9 / 500 : ℚ) : WithTop ℚ) ≠
            max ((9 / 500 : ℚ) : WithTop ℚ)
              (max (((0 : ℚ)) : WithTop ℚ) ((9 / 500 : ℚ) : WithTop ℚ)) →
          (((0 : ℚ)) : WithTop ℚ) =
            max ((9 / 500 : ℚ) : WithTop ℚ)
              (max (((0 : ℚ)) : WithTop ℚ) ((9 / 500 : ℚ) : WithTop ℚ)) →
          findNonCollidingStemHeight 0
            [0 + stemToPrice STEM_HEIGHTS.medium 1]
            (1 * MIN_ICON_SEPARATION_PERCENT) 1 = STEM_HEIGHTS.medium) ∧
        (((9 / 500 : ℚ) : WithTop ℚ) ≠
            max ((9 / 500 : ℚ) : WithTop ℚ)
              (max (((0 : ℚ)) : WithTop ℚ) ((9 / 500 : ℚ) : WithTop ℚ)) →
          (((0 : ℚ)) : WithTop ℚ) ≠
            max ((9 / 500 : ℚ) : WithTop ℚ)
              (max (((0 : ℚ)) : WithTop ℚ) ((9 / 500 : ℚ) : WithTop ℚ)) →
          findNonCollidingStemHeight 0
            [0 + stemToPrice STEM_HEIGHTS.medium 1]
            (1 * MIN_ICON_SEPARATION_PERCENT) 1 = STEM_HEIGHTS.long)) ∧
      (max ((9 / 500 : ℚ) : WithTop ℚ)
          (max (((0 : ℚ)) : WithTop ℚ) ((9 / 500 : ℚ) : WithTop ℚ)) =
          (((0 : ℚ)) : WithTop ℚ) →
        findNonCollidingStemHeight 0
          [0 + stemToPrice STEM_HEIGHTS.medium 1]
          (1 * MIN_ICON_SEPARATION_PERCENT) 1 = STEM_HEIGHTS.long)) := by
  constructor
  · exact claim_C8_amended.1 [⟨0, 0, 0⟩] 1 ⟨0, 0, 0⟩ (List.mem_singleton_self _)
  · exact claim_C8_amended.2 0 (1 * MIN_ICON_SEPARATION_PERCENT) 1
      [0 + stemToPrice STEM_HEIGHTS.medium 1]
      ((9 / 500 : ℚ) : WithTop ℚ) (((0 : ℚ)) : WithTop ℚ)
      ((9 / 500 : ℚ) : WithTop ℚ) _ _
      coincident_minDistance_short coincident_minDistance_medium
      coincident_minDistance_long rfl rfl coincident_collides_short
      coincident_collides_medium coincident_collides_long

end FlagLayout

/-!
## src/components/chart/viz-stock-chart.ts — simulated realtime feed
-/

namespace StockChart

/-- One OHLC sample; `open` is a Lean keyword, hence the field open_. -/
structure OHLCDataPoint where
  time : Int
  open_ : ℚ
  high : ℚ
  low : ℚ
  close : ℚ
  volume : Option ℚ
deriving DecidableEq

/-- Host state touched by addRealtimePoint: the engine handle with its
series array (opaque; only presence of series[0] matters), the retained
price history, and the cached last price. -/
structure StockChartState where
  chart : Option (List Unit)
  data : List OHLCDataPoint
  lastPrice : ℚ

/-- The Math.random() draws and Date.now() reading of one tick. -/
structure RealtimeRandom where
  trendSample : ℚ
  changeSample : ℚ
  highSample : ℚ
  lowSample : ℚ
  volumeSample : ℚ
  now : Int

/-- Array.prototype.slice(-n): the last n elements. -/
def jsSliceNeg (n : Nat) (l : List α) : List α := l.drop (l.length - n)

/-- addRealtimePoint: synthesize a new OHLC point from the last close
with a bounded random walk, retain the last 500 previous points plus the
new one, and update the cached last price.  The engine-side addPoint
calls and the dispatched price-update event act outside this state. -/
def addRealtimePoint (s : StockChartState) (ri : RealtimeRandom) :
    StockChartState :=
  match s.chart with
  | none => s
  | some series =>
    match series.get? 0 with
    | none => s
    | some _ =>
      match s.data.getLast? with
      | none => s
      | some lastPoint =>
        let volatility : ℚ := 2 / 1000
        let trend : ℚ := if 48 / 100 < ri.trendSample then 1 else -1
        let change := lastPoint.close * volatility * trend * ri.changeSample
        let time := ri.now
        let openPrice := lastPoint.close
        let close := openPrice + change
        let high := max openPrice close + |change| * ri.highSample
        let low := min openPrice close - |change| * ri.lowSample
        let volume : Int :=
          ⌊(lastPoint.volume.getD 1000000) * (8 / 10 + ri.volumeSample * (4 / 10))⌋
        let newPoint : OHLCDataPoint :=
          { time := time, open_ := openPrice, high := high, low := low,
            close := close, volume := some ((volume : ℚ)) }
        { s with data := jsSliceNeg 500 s.data ++ [newPoint],
                 lastPrice := close }

/-- Characterization of a tick that actually appends: the new history is
the last 500 previous points followed by the new point. -/
theorem addRealtimePoint_data_spec (s : StockChartState) (ri : RealtimeRandom)
    (u : Unit) (series : List Unit) (lastPoint : OHLCDataPoint)
    (hchart : s.chart = some (u :: series))
    (hlast : s.data.getLast? = some lastPoint) :
    ∃ newPoint,
      (addRealtimePoint s ri).data = s.data.drop (s.data.length - 500) ++ [newPoint] ∧
      (addRealtimePoint s ri).data.length = min s.data.length 500 + 1 := by
  unfold addRealtimePoint
  rw [hchart]
  simp only [List.get?]
  rw [hlast]
  refine ⟨_, rfl, ?_⟩
  simp only [jsSliceNeg, List.length_append, List.length_drop,
    List.length_cons, List.length_nil]
  omega

/-- C2 (amended): after every tick of the simulated realtime feed that
appends a newly synthesized OHLC point, the retained price history is
the 500 most recent previously retained points followed by the new
point, hence holds at most 501 points, with the oldest points evicted. -/
theorem claim_C2_amended (s : StockChartState) (ri : RealtimeRandom)
    (u : Unit) (series : List Unit) (lastPoint : OHLCDataPoint)
    (hchart : s.chart = some (u :: series))
    (hlast : s.data.getLast? = some lastPoint) :
    ∃ newPoint,
      (addRealtimePoint s ri).data =
        s.data.drop (s.data.length - 500) ++ [newPoint] ∧
      (addRealtimePoint s ri).data.length = min s.data.length 500 + 1 ∧
      (addRealtimePoint s ri).data.length ≤ 501 := by
  obtain ⟨np, h1, h2⟩ := addRealtimePoint_data_spec s ri u series lastPoint
    hchart hlast
  exact ⟨np, h1, h2, by rw [h2]; omega⟩

/-- C2 counterexample: a tick on a 500-point history yields 501 retained
points, exceeding the claimed 500-point bound. -/
theorem claim_C2_counterexample :
    (addRealtimePoint
      { chart := some [()],
        data := List.replicate 499 ⟨0, 1, 1, 1, 1, none⟩ ++
          [⟨0, 1, 1, 1, 1, none⟩],
        lastPrice := 1 }
      ⟨1 / 2, 1 / 2, 1 / 2, 1 / 2, 1 / 2, 1000⟩).data.length = 501 ∧
    ¬ ((addRealtimePoint
      { chart := some [()],
        data := List.replicate 499 ⟨0, 1, 1, 1, 1, none⟩ ++
          [⟨0, 1, 1, 1, 1, none⟩],
        lastPrice := 1 }
      ⟨1 / 2, 1 / 2, 1 / 2, 1 / 2, 1 / 2, 1000⟩).data.length ≤ 500) := by
  obtain ⟨np, hdata, hlen⟩ := addRealtimePoint_data_spec
    { chart := some [()],
      data := List.replicate 499 ⟨0, 1, 1, 1, 1, none⟩ ++
        [⟨0, 1, 1, 1, 1, none⟩],
      lastPrice := 1 }
    ⟨1 / 2, 1 / 2, 1 / 2, 1 / 2, 1 / 2, 1000⟩ () [] ⟨0, 1, 1, 1, 1, none⟩
    rfl (List.getLast?_concat _)
  constructor
  · rw [hlen]
    norm_num [List.length_append, List.length_replicate]
  · rw [hlen]
    norm_num [List.length_append, List.length_replicate]

/-- C2 witness: the amended claim applied to a one-point history. -/
theorem claim_C2_witness :
    ∃ newPoint,
      (addRealtimePoint
        { chart := some [()], data := [⟨0, 1, 1, 1, 1, none⟩], lastPrice := 1 }
        ⟨1 / 2, 1 / 2, 1 / 2, 1 / 2, 1 / 2, 1000⟩).data =
        [(⟨0, 1, 1, 1, 1, none⟩ : OHLCDataPoint)].drop
          ([(⟨0, 1, 1, 1, 1, none⟩ : OHLCDataPoint)].length - 500) ++
          [newPoint] ∧
      (addRealtimePoint
        { chart := some [()], data := [⟨0, 1, 1, 1, 1, none⟩], lastPrice := 1 }
        ⟨1 / 2, 1 / 2, 1 / 2, 1 / 2, 1 / 2, 1000⟩).data.length =
        min [(⟨0, 1, 1, 1, 1, none⟩ : OHLCDataPoint)].length 500 + 1 ∧
      (addRealtimePoint
        { chart := some [()], data := [⟨0, 1, 1, 1, 1, none⟩], lastPrice := 1 }
        ⟨1 / 2, 1 / 2, 1 / 2, 1 / 2, 1 / 2, 1000⟩).data.length ≤ 501 :=
  claim_C2_amended
    { chart := some [()], data := [⟨0, 1, 1, 1, 1, none⟩], lastPrice := 1 }
    ⟨1 / 2, 1 / 2, 1 / 2, 1 / 2, 1 / 2, 1000⟩ () [] ⟨0, 1, 1, 1, 1, none⟩
    rfl rfl

end StockChart

/-!
## src/components/chart/viz-stock-evolution.ts — nearest-price lookup
-/

namespace StockEvolution

structure PricePoint where
  time : Int
  price : ℚ
deriving DecidableEq

/-- Time of the sample at an index (JS prices[i].time; out-of-range
reads are never taken on the live paths, defaulted to 0 here). -/
def timeAt (prices : List PricePoint) (i : Nat) : Int :=
  ((prices.get? i).map (fun p => p.time)).getD 0

/-- Price of the sample at an index. -/
def priceAt (prices : List PricePoint) (i : Nat) : ℚ :=
  ((prices.get? i).map (fun p => p.price)).getD 0

/-- The while loop of findPriceAtDate: converge left and right onto the
leftmost sample at or after the timestamp. -/
def searchLoop (prices : List PricePoint) (timestamp : Int)
    (left right : Nat) : Nat :=
  if left < right then
    if timeAt prices ((left + right) / 2) < timestamp then
      searchLoop prices timestamp ((left + right) / 2 + 1) right
    else
      searchLoop prices timestamp left ((left + right) / 2)
  else left
termination_by right - left
decreasing_by all_goals omega

/-- findPriceAtDate: binary search for the price at a timestamp,
resolving to the strictly closer neighbour, ties to the earlier one.
JS prices[left - 1] with left = 0 reads index -1 and yields undefined;
the explicit zero test models that, since Nat subtraction would wrap. -/
def findPriceAtDate (prices : List PricePoint) (timestamp : Int) : ℚ :=
  if prices.length = 0 then 0
  else
    let left := searchLoop prices timestamp 0 (prices.length - 1)
    match prices.get? left with
    | none => ((prices.get? 0).map (fun p => p.price)).getD 0
    | some leftPrice =>
      match (if left = 0 then none else prices.get? (left - 1)) with
      | none => leftPrice.price
      | some prevPrice =>
        if |timestamp - leftPrice.time| < |timestamp - prevPrice.time| then
          leftPrice.price
        else prevPrice.price

/-- Loop invariant of the binary search, by induction on the measure:
the result stays within the initial bounds, every index below it is
strictly before the timestamp, and it is at or after the timestamp
unless it is the last index. -/
theorem searchLoop_spec (prices : List PricePoint) (t : Int)
    (hmono : ∀ i j, i < j → j < prices.length →
      timeAt prices i < timeAt prices j) :
    ∀ (fuel left right : Nat), right - left ≤ fuel → left ≤ right →
    right < prices.length →
    (∀ j, j < left → timeAt prices j < t) →
    (t ≤ timeAt prices right ∨ right = prices.length - 1) →
    left ≤ searchLoop prices t left right ∧
    searchLoop prices t left right ≤ right ∧
    (∀ j, j < searchLoop prices t left right → timeAt prices j < t) ∧
    (t ≤ timeAt prices (searchLoop prices t left right) ∨
      searchLoop prices t left right = prices.length - 1) := by
  intro fuel
  induction fuel with
  | zero =>
    intro left right hfuel hlr hrn hl hri
    have heq : left = right := by omega
    rw [searchLoop, if_neg (by omega)]
    exact ⟨le_refl _, le_of_eq heq, hl, heq ▸ hri⟩
  | succ fuel ih =>
    intro left right hfuel hlr hrn hl hri
    by_cases hlt : left < right
    · rw [searchLoop, if_pos hlt]
      by_cases hmid : timeAt prices ((left + right) / 2) < t
      · rw [if_pos hmid]
        refine (ih ((left + right) / 2 + 1) right (by omega) (by omega) hrn
          ?_ hri).imp (by omega) (fun h => h)
        intro j hj
        rcases Nat.lt_succ_iff_lt_or_eq.mp hj with hj2 | hj2
        · exact lt_trans (hmono j ((left + right) / 2) hj2 (by omega)) hmid
        · exact hj2 ▸ hmid
      · rw [if_neg hmid]
        refine (ih left ((left + right) / 2) (by omega) (by omega) (by omega)
          hl (Or.inl (not_lt.mp hmid))).imp (fun h => h) (fun h => h.imp
            (by omega) (fun h2 => h2))
    · rw [searchLoop, if_neg hlt]
      have heq : left = right := by omega
      exact ⟨le_refl _, le_of_eq heq, hl, heq ▸ hri⟩

/-- Evaluation of findPriceAtDate given the landing index of the binary
search: index 0 returns the first sample, any other index compares the
distances to the sample at the index and its predecessor, the tie going
to the predecessor. -/
theorem findPriceAtDate_cases (prices : List PricePoint) (t : Int)
    (hn : 0 < prices.length) (r : Nat)
    (hr : searchLoop prices t 0 (prices.length - 1) = r)
    (hrn : r < prices.length) :
    (r = 0 → findPriceAtDate prices t = priceAt prices 0) ∧
    (r ≠ 0 →
      (|t - timeAt prices r| < |t - timeAt prices (r - 1)| →
        findPriceAtDate prices t = priceAt prices r) ∧
      (¬ |t - timeAt prices r| < |t - timeAt prices (r - 1)| →
        findPriceAtDate prices t = priceAt prices (r - 1))) := by
  obtain ⟨leftPrice, hlp⟩ : ∃ p, prices.get? r = some p := by
    rw [List.get?_eq_get hrn]; exact ⟨_, rfl⟩
  have hlp2 : prices[r]? = some leftPrice := by
    rw [← List.get?_eq_getElem?]; exact hlp
  have htr : timeAt prices r = leftPrice.time := by simp [timeAt, hlp2]
  have hpr : priceAt prices r = leftPrice.price := by simp [priceAt, hlp2]
  constructor
  · intro hr0
    subst hr0
    unfold findPriceAtDate
    rw [if_neg (by omega)]
    simp only [hr, hlp, if_pos rfl]
    exact hpr.symm
  · intro hr0
    have hprevn : r - 1 < prices.length := by omega
    obtain ⟨prevPrice, hpp⟩ : ∃ p, prices.get? (r - 1) = some p := by
      rw [List.get?_eq_get hprevn]; exact ⟨_, rfl⟩
    have hpp2 : prices[r - 1]? = some prevPrice := by
      rw [← List.get?_eq_getElem?]; exact hpp
    have htp : timeAt prices (r - 1) = prevPrice.time := by
      simp [timeAt, hpp2]
    have hppr : priceAt prices (r - 1) = prevPrice.price := by
      simp [priceAt, hpp2]
    constructor
    · intro hcond
      unfold findPriceAtDate
      rw [if_neg (by omega)]
      simp only [hr, hlp, if_neg hr0, hpp]
      rw [if_pos (by rw [← htr, ← htp]; exact hcond)]
      exact hpr.symm
    · intro hcond
      unfold findPriceAtDate
      rw [if_neg (by omega)]
      simp only [hr, hlp, if_neg hr0, hpp]
      rw [if_neg (by rw [← htr, ← htp]; exact hcond)]
      exact hppr.symm

/-- C3: for a price series strictly sorted ascending by time,
findPriceAtDate returns the sample price at an exact existing
timestamp; the nearest boundary sample price for a timestamp before the
first or after the last sample; and for a timestamp strictly between
two adjacent samples, the earlier sample price at the exact midpoint
(equidistant tie) and otherwise the strictly closer sample price. -/
theorem claim_C3_confirmed (prices : List PricePoint)
    (hsorted : List.Pairwise (fun p q => p.time < q.time) prices) :
    (∀ i, i < prices.length →
      findPriceAtDate prices (timeAt prices i) = priceAt prices i) ∧
    (∀ t, 0 < prices.length → t < timeAt prices 0 →
      findPriceAtDate prices t = priceAt prices 0) ∧
    (∀ t, 0 < prices.length → timeAt prices (prices.length - 1) < t →
      findPriceAtDate prices t = priceAt prices (prices.length - 1)) ∧
    (∀ t i, i + 1 < prices.length →
      timeAt prices i < t → t < timeAt prices (i + 1) →
      (t - timeAt prices i = timeAt prices (i + 1) - t →
        findPriceAtDate prices t = priceAt prices i) ∧
      (t - timeAt prices i < timeAt prices (i + 1) - t →
        findPriceAtDate prices t = priceAt prices i) ∧
      (timeAt prices (i + 1) - t < t - timeAt prices i →
        findPriceAtDate prices t = priceAt prices (i + 1))) := by
  have hmono : ∀ i j, i < j → j < prices.length →
      timeAt prices i < timeAt prices j := by
    intro i j hij hj
    have hi : i < prices.length := lt_trans hij hj
    have hget := List.pairwise_iff_get.mp hsorted ⟨i, hi⟩ ⟨j, hj⟩ hij
    simpa [timeAt, List.get?_eq_get, hi, hj] using hget
  have hspec : ∀ t, 0 < prices.length →
      0 ≤ searchLoop prices t 0 (prices.length - 1) ∧
      searchLoop prices t 0 (prices.length - 1) ≤ prices.length - 1 ∧
      (∀ j, j < searchLoop prices t 0 (prices.length - 1) →
        timeAt prices j < t) ∧
      (t ≤ timeAt prices (searchLoop prices t 0 (prices.length - 1)) ∨
        searchLoop prices t 0 (prices.length - 1) = prices.length - 1) := by
    intro t hn
    exact searchLoop_spec prices t hmono (prices.length - 1) 0
      (prices.length - 1) (by omega) (by omega) (by omega)
      (fun j hj => absurd hj (Nat.not_lt_zero j)) (Or.inr rfl)
  refine ⟨?_, ?_, ?_, ?_⟩
  · -- exact timestamp
    intro i hi
    obtain ⟨-, hub, hbelow, hat⟩ := hspec (timeAt prices i) (by omega)
    set r := searchLoop prices (timeAt prices i) 0 (prices.length - 1) with hrdef
    have hreq : r = i := by
      rcases lt_trichotomy r i with h | h | h
      · rcases hat with hat | hat
        · exact absurd (lt_of_lt_of_le (hmono r i h hi) hat) (lt_irrefl _)
        · omega
      · exact h
      · exact absurd (hbelow i h) (lt_irrefl _)
    obtain ⟨h0, hpos⟩ := findPriceAtDate_cases prices (timeAt prices i)
      (by omega) r rfl (by omega)
    rcases Nat.eq_zero_or_pos i with hi0 | hi0
    · exact hi0 ▸ (h0 (by omega))
    · have hi1 : i - 1 < i := by omega
      rw [hreq] at hpos
      refine (hpos (by omega)).1 ?_
      simp only [sub_self, abs_zero]
      refine abs_pos.mpr ?_
      have := hmono (i - 1) i hi1 hi
      omega
  · -- before the first sample
    intro t hn ht
    obtain ⟨-, -, hbelow, -⟩ := hspec t hn
    set r := searchLoop prices t 0 (prices.length - 1) with hrdef
    have hreq : r = 0 := by
      by_contra h0
      exact absurd (lt_trans (hbelow 0 (by omega)) ht) (lt_irrefl _)
    obtain ⟨h0, -⟩ := findPriceAtDate_cases prices t hn r rfl (by omega)
    exact h0 hreq
  · -- after the last sample
    intro t hn ht
    obtain ⟨-, hub, -, hat⟩ := hspec t hn
    set r := searchLoop prices t 0 (prices.length - 1) with hrdef
    have hreq : r = prices.length - 1 := by
      rcases hat with hat | hat
      · by_contra hne
        have hrlt : r < prices.length - 1 := by omega
        exact absurd (lt_of_le_of_lt hat
          (lt_trans (hmono r (prices.length - 1) hrlt (by omega)) ht))
          (lt_irrefl _)
      · exact hat
    obtain ⟨h0, hpos⟩ := findPriceAtDate_cases prices t hn r rfl (by omega)
    rcases Nat.eq_zero_or_pos (prices.length - 1) with hl0 | hl0
    · rw [hl0]
      exact h0 (hreq.trans hl0)
    · have hr0 : r ≠ 0 := by omega
      have hlt2 : timeAt prices (r - 1) < timeAt prices r := by
        exact hmono (r - 1) r (by omega) (by omega)
      have h1 : |t - timeAt prices r| < |t - timeAt prices (r - 1)| := by
        rw [abs_of_pos (by rw [hreq]; omega),
          abs_of_pos (by
            have := hmono (r - 1) r (by omega) (by omega)
            rw [hreq] at this ⊢
            omega)]
        omega
      rw [← hreq]
      exact (hpos hr0).1 h1
  · -- strictly between two adjacent samples
    intro t i hi1 hti hti1
    obtain ⟨-, hub, hbelow, hat⟩ := hspec t (by omega)
    set r := searchLoop prices t 0 (prices.length - 1) with hrdef
    have hreq : r = i + 1 := by
      rcases lt_trichotomy r (i + 1) with h | h | h
      · rcases hat with hat | hat
        · have hle : timeAt prices r ≤ timeAt prices i := by
            rcases Nat.lt_or_ge r i with h2 | h2
            · exact le_of_lt (hmono r i h2 (by omega))
            · have : r = i := by omega
              rw [this]
          omega
        · omega
      · exact h
      · exact absurd (lt_trans hti1 (hbelow (i + 1) h)) (lt_irrefl _)
    obtain ⟨-, hpos⟩ := findPriceAtDate_cases prices t (by omega) r rfl
      (by omega)
    have hr0 : r ≠ 0 := by omega
    have hprev : r - 1 = i := by omega
    have habs_r : |t - timeAt prices r| = timeAt prices (i + 1) - t := by
      rw [hreq, abs_of_nonpos (by omega)]
      omega
    have habs_p : |t - timeAt prices (r - 1)| = t - timeAt prices i := by
      rw [hprev, abs_of_pos (by omega)]
    refine ⟨?_, ?_, ?_⟩
    · intro htie
      rw [← hprev]
      exact (hpos hr0).2 (by omega)
    · intro hcloser
      rw [← hprev]
      exact (hpos hr0).2 (by omega)
    · intro hcloser
      rw [← hreq]
      exact (hpos hr0).1 (by omega)

/-- C3 witness: the confirmed lookup behaviour on a concrete three-point
series — exact hit, off-midpoint query resolving to the strictly closer
sample, and exact-midpoint tie resolving to the earlier sample. -/
theorem claim_C3_witness :
    List.Pairwise (fun p q : PricePoint => p.time < q.time)
      [⟨0, 10⟩, ⟨10, 20⟩, ⟨20, 30⟩] ∧
    findPriceAtDate [⟨0, 10⟩, ⟨10, 20⟩, ⟨20, 30⟩]
      (timeAt [⟨0, 10⟩, ⟨10, 20⟩, ⟨20, 30⟩] 1) =
      priceAt [⟨0, 10⟩, ⟨10, 20⟩, ⟨20, 30⟩] 1 ∧
    findPriceAtDate [⟨0, 10⟩, ⟨10, 20⟩, ⟨20, 30⟩] 4 =
      priceAt [⟨0, 10⟩, ⟨10, 20⟩, ⟨20, 30⟩] 0 ∧
    findPriceAtDate [⟨0, 10⟩, ⟨10, 20⟩, ⟨20, 30⟩] 5 =
      priceAt [⟨0, 10⟩, ⟨10, 20⟩, ⟨20, 30⟩] 0 := by
  have hpair : List.Pairwise (fun p q : PricePoint => p.time < q.time)
      [⟨0, 10⟩, ⟨10, 20⟩, ⟨20, 30⟩] := by decide
  refine ⟨hpair, ?_, ?_, ?_⟩
  · exact (claim_C3_confirmed _ hpair).1 1 (by decide)
  · exact ((claim_C3_confirmed _ hpair).2.2.2 4 0 (by decide) (by decide)
      (by decide)).2.1 (by decide)
  · exact ((claim_C3_confirmed _ hpair).2.2.2 5 0 (by decide) (by decide)
      (by decide)).1 (by decide)

end StockEvolution

/-!
## src/base/viz-stock-chart-base.ts — zoom preservation across updates

The rendering engine is opaque; per the external interface it exposes
per-axis extremes, getExtremes returning the current state and
setExtremes(min, max) setting the visible range and recording the user
extremes.  The captured axis object is assumed to survive the update
(the engine handle is updated in place on the full-rebuild path), so
the reapplication acts on the post-update axis.
-/

namespace ChartBase

structure AxisExtremes where
  min : Option ℚ
  max : Option ℚ
  userMin : Option ℚ
  userMax : Option ℚ
deriving DecidableEq

structure ChartState where
  xAxis0 : Option AxisExtremes
deriving DecidableEq

def getExtremes (a : AxisExtremes) : AxisExtremes := a

/-- Axis.setExtremes(newMin, newMax): the visible range becomes the
given pair, recorded as user-set extremes. -/
def setExtremes (newMin : ℚ) (newMax : Option ℚ) : AxisExtremes :=
  { min := some newMin, max := newMax,
    userMin := some newMin, userMax := newMax }

/-- preserveExtremesAndUpdate: snapshot the axis extremes, run the
update, and reapply the captured user extremes when a user-set minimum
was present. -/
def preserveExtremesAndUpdate (chart : Option ChartState)
    (updateFn : Option ChartState → Option ChartState) : Option ChartState :=
  match chart with
  | none => updateFn none
  | some c =>
    let extremes := (c.xAxis0).map getExtremes
    let after := updateFn (some c)
    match extremes with
    | none => after
    | some e =>
      match e.userMin with
      | none => after
      | some m =>
        match after with
        | none => none
        | some c2 => some { c2 with xAxis0 := some (setExtremes m e.userMax) }

/-- C4: a full rebuild through preserveExtremesAndUpdate leaves a
user-set visible range unchanged — with a user-set minimum captured
before the update, the extremes reported afterwards equal the captured
user extremes, not whatever the update produced; with no user-set
minimum, the update result stands and no extremes are reapplied. -/
theorem claim_C4_confirmed :
    (∀ (c : ChartState) (e : AxisExtremes) (m M : ℚ)
      (updateFn : Option ChartState → Option ChartState) (c2 : ChartState),
      c.xAxis0 = some e → e.userMin = some m → e.userMax = some M →
      updateFn (some c) = some c2 →
      preserveExtremesAndUpdate (some c) updateFn =
        some { c2 with xAxis0 := some (setExtremes m (some M)) } ∧
      ((preserveExtremesAndUpdate (some c) updateFn).bind
        (fun s => s.xAxis0)).map (fun a => ((getExtremes a).min, (getExtremes a).max)) =
        some (some m, some M)) ∧
    (∀ (c : ChartState) (e : AxisExtremes)
      (updateFn : Option ChartState → Option ChartState),
      c.xAxis0 = some e → e.userMin = none →
      preserveExtremesAndUpdate (some c) updateFn = updateFn (some c)) := by
  constructor
  · intro c e m M updateFn c2 hax hmin hmax hupd
    have h1 : preserveExtremesAndUpdate (some c) updateFn =
        some { c2 with xAxis0 := some (setExtremes m (some M)) } := by
      unfold preserveExtremesAndUpdate
      dsimp only
      rw [hax]
      simp only [hupd]
      simp [getExtremes, hmin, hmax]
    exact ⟨h1, by rw [h1]; rfl⟩
  · intro c e updateFn hax hmin
    unfold preserveExtremesAndUpdate
    dsimp only
    rw [hax]
    simp [getExtremes, hmin]

/-- C4 witness: a rebuild that resets the axis to the engine default is
overridden back to the captured user range 100 to 200; without a
user-set minimum the update result is untouched. -/
theorem claim_C4_witness :
    ((⟨some ⟨some 0, some 1000, some 100, some 200⟩⟩ : ChartState).xAxis0 =
      some ⟨some 0, some 1000, some 100, some 200⟩) ∧
    preserveExtremesAndUpdate
      (some ⟨some ⟨some 0, some 1000, some 100, some 200⟩⟩)
      (fun _ => some ⟨some ⟨some 0, some 1000, none, none⟩⟩) =
      some ⟨some ⟨some 100, some 200, some 100, some 200⟩⟩ ∧
    ((preserveExtremesAndUpdate
      (some ⟨some ⟨some 0, some 1000, some 100, some 200⟩⟩)
      (fun _ => some ⟨some ⟨some 0, some 1000, none, none⟩⟩)).bind
        (fun s => s.xAxis0)).map
          (fun a => ((getExtremes a).min, (getExtremes a).max)) =
      some (some 100, some 200) ∧
    preserveExtremesAndUpdate
      (some ⟨some ⟨some 0, some 1000, none, none⟩⟩)
      (fun _ => some ⟨some ⟨some 0, some 1000, none, none⟩⟩) =
      some ⟨some ⟨some 0, some 1000, none, none⟩⟩ := by
  obtain ⟨h1, h2⟩ := claim_C4_confirmed
  obtain ⟨ha, hb⟩ := h1 ⟨some ⟨some 0, some 1000, some 100, some 200⟩⟩
    ⟨some 0, some 1000, some 100, some 200⟩ 100 200
    (fun _ => some ⟨some ⟨some 0, some 1000, none, none⟩⟩)
    ⟨some ⟨some 0, some 1000, none, none⟩⟩ rfl rfl rfl rfl
  exact ⟨rfl, ha, hb,
    h2 ⟨some ⟨some 0, some 1000, none, none⟩⟩ ⟨some 0, some 1000, none, none⟩
      (fun _ => some ⟨some ⟨some 0, some 1000, none, none⟩⟩) rfl rfl⟩

end ChartBase

/-!
## VizStore — shared key-value store with pub/sub

JS values are modelled as Option α with none standing for undefined
(a stored value may itself be undefined, distinct from an absent key).
Subscriber callbacks are identified by numbers; invoking them is
recorded as a call log, and the globally dispatched viz-state-change
CustomEvent as an event log.  Persistence (localStorage) and debug
logging are external effects outside the model; no claim depends on
them.
-/

namespace Store

structure VizStoreOptions where
  persist : Bool := false
  debug : Bool := false
  storagePrefix : Option String := none
deriving DecidableEq

/-- The store; nspace is the source field named namespace, which is a
Lean keyword. -/
structure VizStore (α : Type) where
  state : List (String × Option α)
  subscribers : List (String × List Nat)
  wildcardSubscribers : List Nat
  options : VizStoreOptions
  nspace : String

structure SubscriberCall (α : Type) where
  subscriber : Nat
  key : String
  value : Option α
  previousValue : Option α
deriving DecidableEq

structure StateChangeEvent (α : Type) where
  nspace : String
  key : String
  value : Option α
  previousValue : Option α
deriving DecidableEq

/-- get: current value for a key (undefined when absent). -/
def VizStore.get (s : VizStore α) (key : String) : Option α :=
  (jsMapGet s.state key).getD none

/-- notifySubscribers: key-specific subscribers first, then wildcard
subscribers, each invoked once with (key, value, previousValue). -/
def VizStore.notifySubscribers (s : VizStore α) (key : String)
    (value previousValue : Option α) : List (SubscriberCall α) :=
  ((jsMapGet s.subscribers key).getD []).map
    (fun cb => ⟨cb, key, value, previousValue⟩) ++
  s.wildcardSubscribers.map (fun cb => ⟨cb, key, value, previousValue⟩)

/-- set: skip when the value is shallow-equal to the current one, else
store, notify subscribers and emit one global state-change event. -/
def VizStore.set [DecidableEq α] (s : VizStore α) (key : String)
    (value : Option α) :
    VizStore α × List (SubscriberCall α) × List (StateChangeEvent α) :=
  let previousValue := s.get key
  if previousValue = value then (s, [], [])
  else
    let s2 := { s with state := jsMapSet s.state key value }
    (s2, s2.notifySubscribers key value previousValue,
     [⟨s.nspace, key, value, previousValue⟩])

/-- delete: remove the key; only when it existed, notify subscribers
with undefined as the new value and emit the global event.  Returns the
Map.delete result. -/
def VizStore.delete (s : VizStore α) (key : String) :
    VizStore α × Bool × List (SubscriberCall α) × List (StateChangeEvent α) :=
  let previousValue := jsMapGet s.state key
  let deleted := jsMapHas s.state key
  if deleted then
    let s2 := { s with state := jsMapDelete s.state key }
    (s2, true, s2.notifySubscribers key none (previousValue.getD none),
     [⟨s.nspace, key, none, previousValue.getD none⟩])
  else (s, false, [], [])

/-- The private constructor: records namespace and options.  The
loadFromStorage call on persist reads browser localStorage, an external
effect outside the model; the claims do not depend on the initially
loaded contents. -/
def VizStore.mkStore (ns : String) (options : VizStoreOptions) :
    VizStore α :=
  { state := [], subscribers := [], wildcardSubscribers := [],
    options := options, nspace := ns }

/-- getInstance over the static instances registry: create the store on
first access, then return the registered instance; an options argument
on a later call is ignored.  The trailing lookup models the JS non-null
assertion; its default branch is unreachable. -/
def VizStore.getInstance (instances : List (String × VizStore α))
    (ns : String) (options : Option VizStoreOptions) :
    VizStore α × List (String × VizStore α) :=
  let instances2 :=
    if jsMapHas instances ns then instances
    else jsMapSet instances ns (VizStore.mkStore ns (options.getD {}))
  ((jsMapGet instances2 ns).getD (VizStore.mkStore ns (options.getD {})),
   instances2)

/-- clearAll: drop every namespace instance. -/
def VizStore.clearAll (α : Type) : List (String × VizStore α) := []

/-! ## Supporting lemmas on the JS map model -/

theorem jsMapGet_jsMapSet_self [BEq κ] [LawfulBEq κ] (m : List (κ × β))
    (k : κ) (v : β) : jsMapGet (jsMapSet m k v) k = some v := by
  unfold jsMapSet jsMapGet
  split_ifs with h
  · induction m with
    | nil => simp at h
    | cons p ps ih =>
      by_cases hp : (p.1 == k) = true
      · simp [List.find?, hp]
      · have h2 : ps.any (fun q => q.1 == k) = true := by
          rw [List.any_cons] at h
          simpa [hp] using h
        have hpf : (p.1 == k) = false := by simpa using hp
        rw [List.map_cons,
          show (if (p.1 == k) = true then (k, v) else p) = p from
            if_neg (by simp [hpf]),
          List.find?_cons_of_neg _ (by simp [hpf])]
        exact ih h2
  · rw [List.find?_append]
    have hnone : m.find? (fun q => q.1 == k) = none := by
      rw [List.find?_eq_none]
      intro q hq
      rw [List.any_eq_true] at h
      exact fun hqk => h ⟨q, hq, hqk⟩
    simp [hnone, List.find?]

theorem jsMapHas_eq_isSome [BEq κ] (m : List (κ × β)) (k : κ) :
    jsMapHas m k = (jsMapGet m k).isSome := by
  unfold jsMapHas jsMapGet
  induction m with
  | nil => rfl
  | cons p ps ih =>
    by_cases hp : (p.1 == k) = true
    · simp [List.any_cons, List.find?, hp]
    · simp only [List.any_cons, List.find?, hp, Bool.false_or]
      simpa [hp] using ih

theorem notifyList_filter_length {α : Type} (A B : List Nat) (key : String)
    (v pv : Option α) (cb : Nat) :
    ((A.map (fun c => (⟨c, key, v, pv⟩ : SubscriberCall α)) ++
      B.map (fun c => (⟨c, key, v, pv⟩ : SubscriberCall α))).filter
        (fun n => n.subscriber == cb)).length = A.count cb + B.count cb := by
  rw [List.filter_append, List.length_append]
  congr 1
  · rw [List.filter_map, List.length_map, ← List.countP_eq_length_filter]
    rfl
  · rw [List.filter_map, List.length_map, ← List.countP_eq_length_filter]
    rfl

/-- Result of getInstance on an already-registered namespace: the
registered instance, with the registry unchanged and the options
argument ignored. -/
theorem getInstance_of_registered {α : Type}
    (instances : List (String × VizStore α)) (ns : String) (s : VizStore α)
    (opts : Option VizStoreOptions) (hget : jsMapGet instances ns = some s) :
    VizStore.getInstance instances ns opts = (s, instances) := by
  have hhas : jsMapHas instances ns = true := by
    rw [jsMapHas_eq_isSome, hget]; rfl
  unfold VizStore.getInstance
  dsimp only
  rw [if_pos hhas, hget]
  rfl

/-- C5: set with a value shallow-equal to the current one leaves the
state unchanged, notifies nobody and emits nothing; set with a
different value stores it and invokes each key-specific and each
wildcard subscriber exactly once with the key, the new value and the
previous value. -/
theorem claim_C5_confirmed {α : Type} [DecidableEq α] (s : VizStore α)
    (key : String) (v v2 : Option α) :
    (s.get key = v → s.set key v = (s, [], [])) ∧
    (s.get key ≠ v2 →
      ((s.set key v2).1.get key = v2 ∧
       (s.set key v2).2.1 =
         ((jsMapGet s.subscribers key).getD []).map
           (fun cb => ⟨cb, key, v2, s.get key⟩) ++
         s.wildcardSubscribers.map (fun cb => ⟨cb, key, v2, s.get key⟩) ∧
       (∀ cb ∈ (jsMapGet s.subscribers key).getD [],
         ((jsMapGet s.subscribers key).getD []).Nodup →
         cb ∉ s.wildcardSubscribers →
         ((s.set key v2).2.1.filter
           (fun n => n.subscriber == cb)).length = 1) ∧
       (∀ cb ∈ s.wildcardSubscribers,
         s.wildcardSubscribers.Nodup →
         cb ∉ (jsMapGet s.subscribers key).getD [] →
         ((s.set key v2).2.1.filter
           (fun n => n.subscriber == cb)).length = 1))) := by
  constructor
  · intro hv
    unfold VizStore.set
    dsimp only
    rw [if_pos hv]
  · intro hne
    have hset : s.set key v2 =
        ({ s with state := jsMapSet s.state key v2 },
         VizStore.notifySubscribers { s with state := jsMapSet s.state key v2 }
           key v2 (s.get key),
         [⟨s.nspace, key, v2, s.get key⟩]) := by
      unfold VizStore.set
      dsimp only
      rw [if_neg hne]
    have hnotif : (s.set key v2).2.1 =
        ((jsMapGet s.subscribers key).getD []).map
          (fun cb => ⟨cb, key, v2, s.get key⟩) ++
        s.wildcardSubscribers.map (fun cb => ⟨cb, key, v2, s.get key⟩) := by
      rw [hset]
      rfl
    refine ⟨?_, hnotif, ?_, ?_⟩
    · rw [hset]
      show (jsMapGet (jsMapSet s.state key v2) key).getD none = v2
      rw [jsMapGet_jsMapSet_self]
      rfl
    · intro cb hmem hnd hnotin
      rw [hnotif, notifyList_filter_length]
      rw [List.count_eq_one_of_mem hnd hmem,
        List.count_eq_zero_of_not_mem hnotin]
    · intro cb hmem hnd hnotin
      rw [hnotif, notifyList_filter_length]
      rw [List.count_eq_one_of_mem hnd hmem,
        List.count_eq_zero_of_not_mem hnotin]

/-- C5 witness: a store holding k with one key subscriber and one
wildcard subscriber — a shallow-equal set is a silent no-op, a changed
set stores the value and reaches each subscriber exactly once. -/
theorem claim_C5_witness :
    ((⟨[("k", some 1)], [("k", [7])], [8], {}, "ns"⟩ :
        VizStore Nat).get "k" = some 1 ∧
      (⟨[("k", some 1)], [("k", [7])], [8], {}, "ns"⟩ :
        VizStore Nat).set "k" (some 1) =
        (⟨[("k", some 1)], [("k", [7])], [8], {}, "ns"⟩, [], [])) ∧
    ((⟨[("k", some 1)], [("k", [7])], [8], {}, "ns"⟩ :
        VizStore Nat).get "k" ≠ some 2 ∧
      ((⟨[("k", some 1)], [("k", [7])], [8], {}, "ns"⟩ :
        VizStore Nat).set "k" (some 2)).1.get "k" = some 2 ∧
      (((⟨[("k", some 1)], [("k", [7])], [8], {}, "ns"⟩ :
        VizStore Nat).set "k" (some 2)).2.1.filter
          (fun n => n.subscriber == 7)).length = 1 ∧
      (((⟨[("k", some 1)], [("k", [7])], [8], {}, "ns"⟩ :
        VizStore Nat).set "k" (some 2)).2.1.filter
          (fun n => n.subscriber == 8)).length = 1) := by
  have hc := claim_C5_confirmed
    (⟨[("k", some 1)], [("k", [7])], [8], {}, "ns"⟩ : VizStore Nat)
    "k" (some 1) (some 2)
  have h2 := hc.2 (by decide)
  exact ⟨⟨rfl, hc.1 rfl⟩, by decide, h2.1,
    h2.2.2.1 7 (by decide) (by decide) (by decide),
    h2.2.2.2 8 (by decide) (by decide) (by decide)⟩

/-- C9: delete on an absent key returns false, leaves the state
unchanged, invokes no subscriber and emits no global state-change
event. -/
theorem claim_C9_confirmed {α : Type} (s : VizStore α) (key : String)
    (h : jsMapHas s.state key = false) :
    s.delete key = (s, false, [], []) := by
  unfold VizStore.delete
  dsimp only
  rw [if_neg (by simp [h])]

/-- C9 witness: deleting a missing key from a one-entry store. -/
theorem claim_C9_witness :
    jsMapHas (⟨[("a", some 1)], [], [], {}, "ns"⟩ :
      VizStore Nat).state "b" = false ∧
    (⟨[("a", some 1)], [], [], {}, "ns"⟩ : VizStore Nat).delete "b" =
      (⟨[("a", some 1)], [], [], {}, "ns"⟩, false, [], []) :=
  ⟨rfl, claim_C9_confirmed _ "b" rfl⟩

/-- C10: the first getInstance call for a namespace fixes that
namespace permanently — it registers a store built from the supplied
options, and every later call returns that identical instance with the
registry unchanged, ignoring whatever options it passes. -/
theorem claim_C10_confirmed {α : Type} :
    (∀ (instances : List (String × VizStore α)) (ns : String)
      (s : VizStore α) (opts : Option VizStoreOptions),
      jsMapGet instances ns = some s →
      VizStore.getInstance instances ns opts = (s, instances)) ∧
    (∀ (instances : List (String × VizStore α)) (ns : String)
      (opts : Option VizStoreOptions),
      jsMapGet instances ns = none →
      (VizStore.getInstance instances ns opts).1 =
        VizStore.mkStore ns (opts.getD {}) ∧
      jsMapGet (VizStore.getInstance instances ns opts).2 ns =
        some (VizStore.mkStore ns (opts.getD {})) ∧
      ∀ opts2, VizStore.getInstance
          (VizStore.getInstance instances ns opts).2 ns opts2 =
        ((VizStore.getInstance instances ns opts).1,
         (VizStore.getInstance instances ns opts).2)) := by
  constructor
  · exact fun instances ns s opts hget =>
      getInstance_of_registered instances ns s opts hget
  · intro instances ns opts hget
    have hhas : jsMapHas instances ns = false := by
      rw [jsMapHas_eq_isSome, hget]; rfl
    have hkey : VizStore.getInstance instances ns opts =
        (VizStore.mkStore ns (opts.getD {}),
         jsMapSet instances ns (VizStore.mkStore ns (opts.getD {}))) := by
      unfold VizStore.getInstance
      dsimp only
      rw [if_neg (by simp [hhas]), jsMapGet_jsMapSet_self]
      rfl
    refine ⟨by rw [hkey], by rw [hkey]; exact jsMapGet_jsMapSet_self _ _ _, ?_⟩
    intro opts2
    rw [hkey]
    exact getInstance_of_registered _ _ _ _ (jsMapGet_jsMapSet_self _ _ _)

/-- C10 witness: a registered namespace is returned as-is with options
ignored; a fresh namespace is created from the first options and a
second call with different options returns the identical instance. -/
theorem claim_C10_witness :
    (jsMapGet [("a", (VizStore.mkStore "a" {} : VizStore Nat))] "a" =
      some (VizStore.mkStore "a" {}) ∧
     VizStore.getInstance [("a", (VizStore.mkStore "a" {} : VizStore Nat))]
        "a" (some { debug := true }) =
      (VizStore.mkStore "a" {}, [("a", VizStore.mkStore "a" {})])) ∧
    (jsMapGet ([] : List (String × VizStore Nat)) "b" = none ∧
     (VizStore.getInstance ([] : List (String × VizStore Nat)) "b"
        (some { persist := true })).1 =
       VizStore.mkStore "b" { persist := true } ∧
     ∀ opts2, VizStore.getInstance
        (VizStore.getInstance ([] : List (String × VizStore Nat)) "b"
          (some { persist := true })).2 "b" opts2 =
       ((VizStore.getInstance ([] : List (String × VizStore Nat)) "b"
          (some { persist := true })).1,
        (VizStore.getInstance ([] : List (String × VizStore Nat)) "b"
          (some { persist := true })).2)) := by
  have h2 := claim_C10_confirmed.2 ([] : List (String × VizStore Nat)) "b"
    (some { persist := true }) rfl
  exact ⟨⟨rfl, claim_C10_confirmed.1 _ "a" _ (some { debug := true }) rfl⟩,
    rfl, h2.1, h2.2.2⟩

end Store

/-!
## ThemeController (core/theme.ts) — debounced auto detection

The event loop is modelled explicitly: an observed class-list mutation
runs debouncedDetect, which clears any pending timer and schedules
detectTheme 50ms later; a pending timer whose deadline has passed fires
before the next mutation is delivered.  onThemeChange invocations are
recorded in a log.
-/

namespace Theme

inductive EffectiveTheme | light | dark
deriving DecidableEq

inductive ThemeMode | light | dark | auto
deriving DecidableEq

structure ThemeState where
  current : EffectiveTheme
  mode : ThemeMode
  isAuto : Bool
deriving DecidableEq

/-- Class lists of the two observed ancestor nodes. -/
structure DomState where
  documentElementClasses : List String
  bodyClasses : List String
deriving DecidableEq

/-- detectFromEnvironment: a configured dark selector present on either
node means dark, otherwise light; system preference is never consulted. -/
def detectFromEnvironment (darkModeSelectors : Option (List String))
    (dom : DomState) : EffectiveTheme :=
  let selectors := darkModeSelectors.getD ["dark"]
  if selectors.any (fun sel =>
      dom.documentElementClasses.contains sel || dom.bodyClasses.contains sel)
  then .dark else .light

def DEBOUNCE_MS : ℚ := 50

structure ControllerState where
  mode : ThemeMode
  currentTheme : EffectiveTheme
  debounceTimer : Option ℚ
  dom : DomState
  callbackLog : List ThemeState
deriving DecidableEq

/-- detectTheme: re-resolve the effective theme and invoke onThemeChange
when it changed (the deferred requestUpdate is outside the model). -/
def detectThemeStep (darkModeSelectors : Option (List String))
    (s : ControllerState) : ControllerState :=
  let previousTheme := s.currentTheme
  let newTheme := match s.mode with
    | .auto => detectFromEnvironment darkModeSelectors s.dom
    | .light => .light
    | .dark => .dark
  if previousTheme = newTheme then { s with currentTheme := newTheme }
  else { s with
          currentTheme := newTheme,
          callbackLog := s.callbackLog ++
            [⟨newTheme, s.mode, decide (s.mode = .auto)⟩] }

/-- A pending debounce timer fires: the timer slot clears and
detectTheme runs against the current DOM state. -/
def fireTimer (darkModeSelectors : Option (List String))
    (s : ControllerState) : ControllerState :=
  match s.debounceTimer with
  | none => s
  | some _ => detectThemeStep darkModeSelectors { s with debounceTimer := none }

/-- One observed mutation at a time point: a pending timer whose 50ms
deadline already passed fires first, then debouncedDetect clears the
slot and schedules detectTheme 50ms after the mutation. -/
def mutationStep (darkModeSelectors : Option (List String))
    (s : ControllerState) (ev : ℚ × DomState) : ControllerState :=
  let s1 := match s.debounceTimer with
    | some deadline =>
      if deadline ≤ ev.1 then fireTimer darkModeSelectors s else s
    | none => s
  { s1 with dom := ev.2, debounceTimer := some (ev.1 + DEBOUNCE_MS) }

/-- Deliver a burst of mutations, then let quiescence elapse so the
pending timer fires. -/
def runMutations (darkModeSelectors : Option (List String))
    (s0 : ControllerState) (events : List (ℚ × DomState)) : ControllerState :=
  fireTimer darkModeSelectors (events.foldl (mutationStep darkModeSelectors) s0)

/-- Consecutive mutations arrive within the 50ms debounce window of
their predecessor. -/
def gapsWithinWindow : List (ℚ × DomState) → Prop
  | [] => True
  | [_] => True
  | a :: b :: rest => b.1 < a.1 + DEBOUNCE_MS ∧ gapsWithinWindow (b :: rest)

theorem getLast_cons_exists {α : Type} (c : α) (l : List α) :
    ∃ y, (c :: l).getLast? = some y := by
  induction l generalizing c with
  | nil => exact ⟨c, rfl⟩
  | cons d l2 ih => rw [List.getLast?_cons_cons]; exact ih d

theorem foldl_in_window (darkModeSelectors : Option (List String)) :
    ∀ (l : List (ℚ × DomState)) (s : ControllerState) (a : ℚ × DomState),
    s.debounceTimer = some (a.1 + DEBOUNCE_MS) → gapsWithinWindow (a :: l) →
    l.foldl (mutationStep darkModeSelectors) s =
      (match l.getLast? with
       | none => s
       | some last =>
         { s with dom := last.2, debounceTimer := some (last.1 + DEBOUNCE_MS) }) := by
  intro l
  induction l with
  | nil => intro s a _ _; rfl
  | cons b l2 ih =>
    intro s a htimer hwin
    obtain ⟨hgap, hwin2⟩ := hwin
    rw [List.foldl_cons]
    have hstep : mutationStep darkModeSelectors s b =
        { s with dom := b.2, debounceTimer := some (b.1 + DEBOUNCE_MS) } := by
      unfold mutationStep
      rw [htimer]
      dsimp only
      rw [if_neg (by exact not_le.mpr hgap)]
    rw [hstep, ih _ b rfl hwin2]
    cases l2 with
    | nil => rfl
    | cons c l3 =>
      obtain ⟨y, hy⟩ := getLast_cons_exists c l3
      rw [List.getLast?_cons_cons, hy]

theorem fireTimer_log (darkModeSelectors : Option (List String))
    (s : ControllerState) (d : ℚ)
    (htimer : s.debounceTimer = some d) (hmode : s.mode = .auto)
    (hlog : s.callbackLog = []) :
    (fireTimer darkModeSelectors s).callbackLog =
      (if detectFromEnvironment darkModeSelectors s.dom = s.currentTheme
       then []
       else [⟨detectFromEnvironment darkModeSelectors s.dom, .auto, true⟩]) := by
  unfold fireTimer
  rw [htimer]
  unfold detectThemeStep
  dsimp only
  rw [hmode]
  by_cases hc : s.currentTheme = detectFromEnvironment darkModeSelectors s.dom
  · rw [if_pos hc, if_pos hc.symm]
    exact hlog
  · rw [if_neg hc, if_neg (Ne.symm hc)]
    dsimp only
    rw [hlog]
    rfl

/-- C6: in auto mode, for any burst of class-list mutations whose
consecutive gaps stay inside the 50ms debounce window, onThemeChange
fires at most once for the window; when it fires it carries the theme
resolved from the final DOM state of the burst, and it does not fire at
all when that final resolved theme equals the previous one. -/
theorem claim_C6_confirmed (darkModeSelectors : Option (List String))
    (s0 : ControllerState) (e0 lastEv : ℚ × DomState)
    (rest : List (ℚ × DomState))
    (hmode : s0.mode = .auto) (htimer : s0.debounceTimer = none)
    (hlog : s0.callbackLog = [])
    (hwin : gapsWithinWindow (e0 :: rest))
    (hlast : (e0 :: rest).getLast? = some lastEv) :
    (runMutations darkModeSelectors s0 (e0 :: rest)).callbackLog =
      (if detectFromEnvironment darkModeSelectors lastEv.2 = s0.currentTheme
       then []
       else [⟨detectFromEnvironment darkModeSelectors lastEv.2, .auto, true⟩]) ∧
    (runMutations darkModeSelectors s0 (e0 :: rest)).callbackLog.length ≤ 1 := by
  have hstep0 : mutationStep darkModeSelectors s0 e0 =
      { s0 with dom := e0.2, debounceTimer := some (e0.1 + DEBOUNCE_MS) } := by
    unfold mutationStep
    rw [htimer]
  have hfold : (e0 :: rest).foldl (mutationStep darkModeSelectors) s0 =
      { s0 with dom := lastEv.2, debounceTimer := some (lastEv.1 + DEBOUNCE_MS) } := by
    rw [List.foldl_cons, hstep0,
      foldl_in_window darkModeSelectors rest _ e0 rfl hwin]
    cases rest with
    | nil =>
      have hl2 : some e0 = some lastEv := hlast
      injection hl2 with he
      subst he
      rfl
    | cons c l3 =>
      obtain ⟨y, hy⟩ := getLast_cons_exists c l3
      rw [List.getLast?_cons_cons, hy] at hlast
      injection hlast with he
      subst he
      rw [hy]
  have hmain : (runMutations darkModeSelectors s0 (e0 :: rest)).callbackLog =
      (if detectFromEnvironment darkModeSelectors lastEv.2 = s0.currentTheme
       then []
       else [⟨detectFromEnvironment darkModeSelectors lastEv.2, .auto, true⟩]) := by
    unfold runMutations
    rw [hfold]
    exact fireTimer_log darkModeSelectors _ (lastEv.1 + DEBOUNCE_MS) rfl hmode hlog
  refine ⟨hmain, ?_⟩
  rw [hmain]
  split_ifs <;> simp

/-- Concrete inputs for the C6 witness: start light, toggle dark on then
off again within the window. -/
def exTheme_s0 : ControllerState :=
  ⟨.auto, .light, none, ⟨[], []⟩, []⟩

def exTheme_domDark : DomState := ⟨["dark"], []⟩

def exTheme_domLight : DomState := ⟨[], []⟩

/-- Witness for C6: two mutations 30ms apart (dark added, then removed);
the callback never fires, and in particular not for the intermediate
dark state. -/
theorem claim_C6_witness :
    (runMutations none exTheme_s0
      [((0 : ℚ), exTheme_domDark), ((30 : ℚ), exTheme_domLight)]).callbackLog = [] ∧
    (runMutations none exTheme_s0
      [((0 : ℚ), exTheme_domDark), ((30 : ℚ), exTheme_domLight)]).callbackLog.length ≤ 1 := by
  have hwin : gapsWithinWindow
      [((0 : ℚ), exTheme_domDark), ((30 : ℚ), exTheme_domLight)] :=
    ⟨by norm_num [DEBOUNCE_MS], trivial⟩
  have h := claim_C6_confirmed none exTheme_s0
    ((0 : ℚ), exTheme_domDark) ((30 : ℚ), exTheme_domLight)
    [((30 : ℚ), exTheme_domLight)] rfl rfl rfl hwin rfl
  refine ⟨?_, h.2⟩
  rw [h.1]
  rfl

end Theme

/-!
## Lazy-visibility gating (base/viz-highcharts-component.ts, core/lazy.ts)

Chart-host state relevant to the lazy gate; updateChart is abstract in
the base class, so the model counts its invocations.
-/

namespace Host

structure HostState where
  lazy : Bool
  isVisible : Bool
  hasBeenVisible : Bool
  chart : Bool
  chartInitialized : Bool
  demo : Bool
  hasData : Bool
  updateChartCount : Nat
deriving DecidableEq

def updateChart (s : HostState) : HostState :=
  { s with updateChartCount := s.updateChartCount + 1 }

/-- onWatchedPropertiesChange: with lazy on and the element never yet
visible, the change is dropped; otherwise updateChart runs when there is
no chart yet or the change set is non-empty. -/
def onWatchedPropertiesChange (s : HostState) (changedSize : Nat) : HostState :=
  if !s.lazy || s.hasBeenVisible then
    if !s.chart || changedSize > 0 then
      { updateChart s with chartInitialized := true }
    else s
  else s

/-- onBecameVisible: demo data loads when in demo mode without data,
then updateChart runs unconditionally. -/
def onBecameVisible (s : HostState) : HostState :=
  let s1 := if s.demo && !s.hasData then { s with hasData := true } else s
  { updateChart s1 with chartInitialized := true }

/-- LazyInitController.forceVisible: only acts the first time; sets the
visibility flags and invokes the onVisible callback (onBecameVisible). -/
def forceVisible (s : HostState) : HostState :=
  if !s.hasBeenVisible then
    onBecameVisible { s with isVisible := true, hasBeenVisible := true }
  else s

/-- C7: with lazy enabled and visibility never fired, any sequence of
watched-property changes leaves the host state (and in particular the
updateChart invocation count) untouched, and a subsequent forceVisible
performs exactly one updateChart invocation. -/
theorem claim_C7_confirmed (s0 : HostState) (changes : List Nat)
    (hlazy : s0.lazy = true) (hnv : s0.hasBeenVisible = false) :
    changes.foldl onWatchedPropertiesChange s0 = s0 ∧
    (forceVisible (changes.foldl onWatchedPropertiesChange s0)).updateChartCount =
      s0.updateChartCount + 1 := by
  have hfold : changes.foldl onWatchedPropertiesChange s0 = s0 := by
    induction changes with
    | nil => rfl
    | cons n rest ih =>
      rw [List.foldl_cons,
        show onWatchedPropertiesChange s0 n = s0 by
          unfold onWatchedPropertiesChange
          rw [hlazy, hnv]
          rfl]
      exact ih
  refine ⟨hfold, ?_⟩
  rw [hfold]
  unfold forceVisible
  rw [hnv]
  unfold onBecameVisible updateChart
  dsimp only
  by_cases hd : (s0.demo && !s0.hasData) = true
  · rw [if_pos hd]
    simp
  · rw [if_neg hd]
    simp

/-- Witness for C7 at a concrete lazy host and change burst. -/
theorem claim_C7_witness :
    [(3 : Nat), 0, 5].foldl onWatchedPropertiesChange
        ⟨true, false, false, false, false, false, false, 0⟩ =
      ⟨true, false, false, false, false, false, false, 0⟩ ∧
    (forceVisible ([(3 : Nat), 0, 5].foldl onWatchedPropertiesChange
        ⟨true, false, false, false, false, false, false, 0⟩)).updateChartCount = 0 + 1 :=
  claim_C7_confirmed ⟨true, false, false, false, false, false, false, 0⟩
    [3, 0, 5] rfl rfl

end Host

end Viz
